import Mathlib

/-!
Verification development for the Continuum acceleration engine.

The definitions below are a shallow embedding of the Python modules under
`src/continuum/accelerate/`: `system_tuner.py`, `system_state.py`,
`system_cli.py`, `registry.py`, `models.py`, `plan_builder.py`,
`reporting.py`, `plugins/loader.py` and the apply loop of `cli.py`.
External reads (files under /sys, subprocess results, psutil calls) are
parameters of the embedding: a `HostReads` record holds the values the
capture pass would observe, and a `HostExec` record holds the outcomes of
the commands and system calls the apply/restore passes would perform.
Every executed external command and state-file write is recorded in an
explicit effect list so that frame properties (dry-run performs nothing)
are statable.
-/

namespace Continuum

/-! ## String primitives

Python string operations (`lower()`, `in`, `endswith`, `int()`,
lexicographic `<`) re-expressed over character lists so that every
definition evaluates by kernel reduction.  The strings this program
compares (action ids, categories, profile names, file names) are ASCII,
which is the range these helpers treat exactly like Python. -/

/-- Python `a < b` on strings: lexicographic comparison of code points. -/
def listLt : List Char → List Char → Bool
  | [], b => !b.isEmpty
  | _ :: _, [] => false
  | a :: as, b :: bs =>
      decide (a.toNat < b.toNat) || (a.toNat == b.toNat && listLt as bs)

def strLt (a b : String) : Bool := listLt a.data b.data

/-- Python `str.lower()` (ASCII range). -/
def pyLower (s : String) : String := String.mk (s.data.map Char.toLower)

def isSpaceChar (c : Char) : Bool :=
  c == ' ' || c == '\t' || c == '\n' || c == '\r'

/-- Python `str.strip()`. -/
def pyStrip (s : String) : String :=
  String.mk (((s.data.dropWhile isSpaceChar).reverse.dropWhile isSpaceChar).reverse)

/-- Prefix test on character lists. -/
def listIsPre : List Char → List Char → Bool
  | [], _ => true
  | _ :: _, [] => false
  | a :: ps, b :: ss => a == b && listIsPre ps ss

/-- Substring test on character lists. -/
def listHasSub (pat : List Char) : List Char → Bool
  | [] => pat.isEmpty
  | c :: rest => listIsPre pat (c :: rest) || listHasSub pat rest

/-- Python `pat in s`. -/
def strContains (s pat : String) : Bool := listHasSub pat.data s.data

/-- Python `s.endswith(suffix)`. -/
def pyEndsWith (s suffix : String) : Bool :=
  listIsPre suffix.data.reverse s.data.reverse

/-- Digit-sequence parser used by `pyStrToInt`. -/
def parseDigits : Nat → List Char → Option Nat
  | acc, [] => some acc
  | acc, c :: cs =>
      if 48 ≤ c.toNat && c.toNat ≤ 57 then
        parseDigits (acc * 10 + (c.toNat - 48)) cs
      else none

/-- Python `int(s)` on a string: optional sign followed by at least one
digit (surrounding whitespace is not modelled; the snapshot values this
program converts are produced by its own capture pass). -/
def pyStrToInt (s : String) : Option Int :=
  match s.data with
  | '-' :: rest =>
      if rest.isEmpty then none
      else (parseDigits 0 rest).map (fun n => -(n : Int))
  | '+' :: rest =>
      if rest.isEmpty then none
      else (parseDigits 0 rest).map (fun n => (n : Int))
  | ds =>
      if ds.isEmpty then none
      else (parseDigits 0 ds).map (fun n => (n : Int))

/-- JSON-like values as stored in the previous-state snapshot file
(`accelerate_state.json`).  `nul` is JSON `null` / Python `None`. -/
inductive JValue where
  | nul : JValue
  | str (s : String) : JValue
  | int (n : Int) : JValue
  | obj (fields : List (String × JValue)) : JValue

/-- Python truthiness of a snapshot value (`if governor:`). -/
def JValue.truthy : JValue → Bool
  | .nul => false
  | .str s => !(s == "")
  | .int n => !(n == 0)
  | .obj fs => !fs.isEmpty

/-- Python `str()` / f-string rendering of a snapshot value.  The `obj`
case is never rendered by the restore path on snapshots produced by
`capture_previous_state` (objects only appear under `rlimit_nofile`,
whose fields are extracted before formatting). -/
def JValue.pyStr : JValue → String
  | .nul => "None"
  | .str s => s
  | .int n => toString n
  | .obj _ => "{...}"

/-- Python `int()` applied to a snapshot value: succeeds on integers and
integer-shaped strings, raises (`Except.error` with the exception text)
otherwise. -/
def JValue.pyInt : JValue → Except String Int
  | .int n => .ok n
  | .str s =>
      match pyStrToInt s with
      | some n => .ok n
      | none => .error ("ValueError: invalid literal for int() with base 10: " ++ s)
  | .nul => .error "TypeError: int() argument cannot be None"
  | .obj _ => .error "TypeError: int() argument cannot be a dict"

/-- The previous-state snapshot: a flat JSON object, modelled as an
association list in insertion order (Python dicts preserve insertion
order and `capture_previous_state` inserts each key once). -/
abbrev Snapshot := List (String × JValue)

/-- Raw key lookup: distinguishes a key stored with JSON null from an
absent key. -/
def Snapshot.lookup? (st : Snapshot) (k : String) : Option JValue :=
  List.lookup k st

/-- Python `dict.get(key)`: `None` both when the key is absent and when
the stored value is JSON null (loaded as Python `None`), so the two are
collapsed here.  `Snapshot.lookup?` keeps the distinction. -/
def Snapshot.pyGet (st : Snapshot) (k : String) : Option JValue :=
  match st.lookup? k with
  | some .nul => none
  | some v => some v
  | none => none

/-- Execution context produced by `detect_context()` in
`system_tuner.py`. -/
structure SysCtx where
  platform : String
  is_linux : Bool
  is_windows : Bool
  is_macos : Bool
  is_root : Bool
  nvidia_present : Bool

/-- GPU persistence mode as parsed by `_read_nvidia_persistence`: the
regex only accepts `Enabled`/`Disabled` and lower-cases the match, so a
successful read is one of exactly two strings. -/
inductive PersistMode where
  | enabled : PersistMode
  | disabled : PersistMode

def PersistMode.toStr : PersistMode → String
  | .enabled => "enabled"
  | .disabled => "disabled"

/-- The values the capture pass would observe on the host: each field is
the result of the corresponding read helper in `system_tuner.py`
(`None` on failure becomes `Option.none`). -/
structure HostReads where
  has_nice : Bool
  nice_val : Int
  rlimit_nofile : Option (Int × Int)
  cpu_governor : Option String
  swappiness : Option Int
  nvidia_persistence : Option PersistMode
  process_priority : Option Int
  power_plan_guid : Option String

def jOptStr : Option String → JValue
  | some s => .str s
  | none => .nul

def jOptInt : Option Int → JValue
  | some n => .int n
  | none => .nul

def jOptPersist : Option PersistMode → JValue
  | some m => .str m.toStr
  | none => .nul

/-- `capture_previous_state(ctx, cpu_only, gpu_only)` from
`system_tuner.py`: builds the snapshot dict in source order.  A read
that failed is stored as JSON null, exactly as the Python code stores
`None`. -/
def capture_previous_state (ctx : SysCtx) (cpu_only gpu_only : Bool)
    (reads : HostReads) : Snapshot :=
  [("nice", if reads.has_nice then JValue.int reads.nice_val else JValue.nul),
   ("rlimit_nofile",
     match reads.rlimit_nofile with
     | some (soft, hard) => JValue.obj [("soft", .int soft), ("hard", .int hard)]
     | none => JValue.nul)]
  ++ (if ctx.is_linux && !gpu_only then
        [("cpu_governor", jOptStr reads.cpu_governor),
         ("swappiness", jOptInt reads.swappiness)]
      else [])
  ++ (if ctx.nvidia_present && !cpu_only then
        [("nvidia_persistence_mode", jOptPersist reads.nvidia_persistence)]
      else [])
  ++ (if ctx.is_windows && !gpu_only then
        [("process_priority", jOptInt reads.process_priority),
         ("power_plan_guid", jOptStr reads.power_plan_guid)]
      else [])

/-- One change record appended by `add_change`: name of tunable, result
tag, human message and optional literal command string. -/
structure Change where
  name : String
  result : String
  message : String
  command : Option String := none
deriving DecidableEq, Repr

/-- Observable side effects of the apply/restore passes: external
commands (`_run_cmd`), in-process system calls, and writes of the
on-disk state file (`save_state`). -/
inductive Effect where
  | runCmd (argv : List String) : Effect
  | setRlimit (soft hard : Int) : Effect
  | osNice (delta : Int) : Effect
  | psSetNice (prio : Int) : Effect
  | saveState : Effect
deriving DecidableEq, Repr

/-- Outcomes of the commands and system calls the host would perform.
`run` returns `(returncode, stdout, stderr)` already stripped, as
`_run_cmd` does; a spawn failure is the `(1, "", "<exc>")` shape the
Python helper produces.  The `Option String` fields are `none` on
success and carry the exception text on failure. -/
structure HostExec where
  run : List String → Int × String × String
  which_cpupower : Bool
  has_nice : Bool
  setrlimit : Int → Int → Option String
  os_nice : Int → Option String
  ps_set_high : Option String
  ps_set_nice : Int → Option String

/-- Python `err or "unknown error"` on a stripped stderr string. -/
def orUnknown (err : String) : String :=
  if err == "" then "unknown error" else err

def orMsg (err fallback : String) : String :=
  if err == "" then fallback else err

/-- Accumulated result of an apply/restore pass: the change list, the
`failures` list and the performed side effects. -/
structure Outcome where
  changes : List Change
  failures : List String
  effects : List Effect
deriving Repr

def Outcome.nil : Outcome := ⟨[], [], []⟩

instance : Append Outcome :=
  ⟨fun a b => ⟨a.changes ++ b.changes, a.failures ++ b.failures, a.effects ++ b.effects⟩⟩

def oneChange (c : Change) : Outcome := ⟨[c], [], []⟩

/-! ## restore_acceleration (`system_tuner.py`, lines 224-319)

Each segment mirrors one tunable's block.  Only the swappiness segment
can raise (the `int(swappiness)` conversion is outside any `try`); all
other conversions in the restore path happen inside `try` blocks and are
converted to skipped entries. -/

/-- cpu_governor restore block. -/
def restoreGov (ctx : SysCtx) (st : Snapshot) (dry : Bool) (host : HostExec) : Outcome :=
  match st.pyGet "cpu_governor" with
  | none => Outcome.nil
  | some g =>
    if !g.truthy then Outcome.nil
    else if dry then
      oneChange ⟨"cpu_governor", "planned", "would restore governor=" ++ g.pyStr, none⟩
    else if ctx.is_root && host.which_cpupower then
      let argv := ["cpupower", "frequency-set", "-g", g.pyStr]
      let res := host.run argv
      if res.1 == 0 then
        ⟨[⟨"cpu_governor", "restored", "restored governor=" ++ g.pyStr, none⟩], [], [.runCmd argv]⟩
      else
        ⟨[⟨"cpu_governor", "failed", orUnknown res.2.2, none⟩],
         ["cpu_governor restore: " ++ orUnknown res.2.2], [.runCmd argv]⟩
    else
      oneChange ⟨"cpu_governor", "skipped", "root/cpupower unavailable for restore", none⟩

/-- swappiness restore block; `int(swappiness)` may raise. -/
def restoreSwap (ctx : SysCtx) (st : Snapshot) (dry : Bool) (host : HostExec) :
    Except String Outcome :=
  match st.pyGet "swappiness" with
  | none => .ok Outcome.nil
  | some v =>
    if dry then
      .ok (oneChange ⟨"swappiness", "planned", "would restore vm.swappiness=" ++ v.pyStr, none⟩)
    else if ctx.is_root then do
      let n ← v.pyInt
      let argv := ["sysctl", "-w", "vm.swappiness=" ++ toString n]
      let res := host.run argv
      if res.1 == 0 then
        .ok ⟨[⟨"swappiness", "restored", "restored vm.swappiness=" ++ v.pyStr, none⟩], [],
             [.runCmd argv]⟩
      else
        .ok ⟨[⟨"swappiness", "failed", orUnknown res.2.2, none⟩], [], [.runCmd argv]⟩
    else
      .ok (oneChange ⟨"swappiness", "skipped", "root required for restore", none⟩)

/-- Python `previous_state.get("rlimit_nofile") or {}` followed by
`.get("soft")` / `.get("hard")`.  A truthy non-dict value would raise an
AttributeError; snapshots written by the capture pass only hold an
object or null here. -/
def rlimitFields (st : Snapshot) : Except String (Option JValue × Option JValue) :=
  match st.pyGet "rlimit_nofile" with
  | none => .ok (none, none)
  | some (.obj fs) => .ok (Snapshot.pyGet fs "soft", Snapshot.pyGet fs "hard")
  | some (.str s) =>
      if s == "" then .ok (none, none)
      else .error "AttributeError: str object has no attribute get"
  | some (.int n) =>
      if n == 0 then .ok (none, none)
      else .error "AttributeError: int object has no attribute get"
  | some .nul => .ok (none, none)

/-- ulimit_nofile restore block; the `int()` conversions and the
`setrlimit` call are inside the `try`, so conversion failures become
skipped entries. -/
def restoreRlimitSeg (st : Snapshot) (dry : Bool) (host : HostExec) :
    Except String Outcome := do
  let (soft?, hard?) ← rlimitFields st
  match soft?, hard? with
  | some soft, some hard =>
    if dry then
      .ok (oneChange ⟨"ulimit_nofile", "planned",
        "would restore soft=" ++ soft.pyStr ++ ", hard=" ++ hard.pyStr, none⟩)
    else
      match soft.pyInt, hard.pyInt with
      | .ok s, .ok h =>
        (match host.setrlimit s h with
         | none =>
           .ok ⟨[⟨"ulimit_nofile", "restored",
                  "restored soft=" ++ soft.pyStr ++ ", hard=" ++ hard.pyStr, none⟩],
                [], [.setRlimit s h]⟩
         | some exc =>
           .ok ⟨[⟨"ulimit_nofile", "skipped", "unable to restore rlimit: " ++ exc, none⟩],
                [], [.setRlimit s h]⟩)
      | .error e, _ =>
        .ok (oneChange ⟨"ulimit_nofile", "skipped", "unable to restore rlimit: " ++ e, none⟩)
      | _, .error e =>
        .ok (oneChange ⟨"ulimit_nofile", "skipped", "unable to restore rlimit: " ++ e, none⟩)
  | _, _ => .ok Outcome.nil

/-- nvidia persistence restore block: only the exact strings
`"enabled"`/`"disabled"` are acted on. -/
def restoreNvidia (ctx : SysCtx) (st : Snapshot) (dry : Bool) (host : HostExec) : Outcome :=
  match st.pyGet "nvidia_persistence_mode" with
  | some (.str s) =>
    if s == "enabled" || s == "disabled" then
      let target := if s == "enabled" then "1" else "0"
      if dry then
        oneChange ⟨"nvidia_persistence", "planned", "would restore persistence=" ++ s, none⟩
      else if ctx.is_root then
        let argv := ["nvidia-smi", "-pm", target]
        let res := host.run argv
        if res.1 == 0 then
          ⟨[⟨"nvidia_persistence", "restored", "restored persistence=" ++ s, none⟩], [],
           [.runCmd argv]⟩
        else
          ⟨[⟨"nvidia_persistence", "failed", orUnknown res.2.2, none⟩], [], [.runCmd argv]⟩
      else
        oneChange ⟨"nvidia_persistence", "skipped", "root/admin may be required for restore", none⟩
    else Outcome.nil
  | _ => Outcome.nil

/-- windows_process_priority restore block; `int(priority)` and the
psutil call are inside the `try`. -/
def restoreWinPriority (st : Snapshot) (dry : Bool) (host : HostExec) : Outcome :=
  match st.pyGet "process_priority" with
  | none => Outcome.nil
  | some p =>
    if dry then
      oneChange ⟨"windows_process_priority", "planned", "would restore priority=" ++ p.pyStr, none⟩
    else
      match p.pyInt with
      | .ok n =>
        (match host.ps_set_nice n with
         | none =>
           ⟨[⟨"windows_process_priority", "restored", "restored priority=" ++ p.pyStr, none⟩],
            [], [.psSetNice n]⟩
         | some exc =>
           ⟨[⟨"windows_process_priority", "skipped", "unable to restore priority: " ++ exc, none⟩],
            [], [.psSetNice n]⟩)
      | .error e =>
        oneChange ⟨"windows_process_priority", "skipped", "unable to restore priority: " ++ e, none⟩

/-- windows_power_plan restore block. -/
def restoreWinPower (st : Snapshot) (dry : Bool) (host : HostExec) : Outcome :=
  match st.pyGet "power_plan_guid" with
  | none => Outcome.nil
  | some pp =>
    if !pp.truthy then Outcome.nil
    else if dry then
      oneChange ⟨"windows_power_plan", "planned", "would restore power plan=" ++ pp.pyStr, none⟩
    else
      let argv := ["powercfg", "/setactive", pp.pyStr]
      let res := host.run argv
      if res.1 == 0 then
        ⟨[⟨"windows_power_plan", "restored", "restored power plan=" ++ pp.pyStr, none⟩],
         [], [.runCmd argv]⟩
      else
        ⟨[⟨"windows_power_plan", "skipped", orMsg res.2.2 "unable to restore power plan", none⟩],
         [], [.runCmd argv]⟩

/-- `restore_acceleration(ctx, previous_state, dry_run)`: driven entirely
by the snapshot.  An uncaught exception (only possible in the swappiness
block) aborts the pass, discarding the local change list, exactly as in
the Python source where the exception propagates to the CLI handler. -/
def restore_acceleration (ctx : SysCtx) (st : Snapshot) (dry : Bool) (host : HostExec) :
    Except String Outcome := do
  let lin ←
    if ctx.is_linux then do
      let swap ← restoreSwap ctx st dry host
      let rl ← restoreRlimitSeg st dry host
      pure (restoreGov ctx st dry host ++ swap ++ rl)
    else pure Outcome.nil
  let nv := if ctx.nvidia_present then restoreNvidia ctx st dry host else Outcome.nil
  let win :=
    if ctx.is_windows then
      restoreWinPriority st dry host ++ restoreWinPower st dry host
    else Outcome.nil
  pure (lin ++ nv ++ win)

/-! ## apply_acceleration (`system_tuner.py`, lines 109-221) -/

/-- cpu_governor apply block: dry-run branch precedes the privilege and
tool checks and records the literal command. -/
def applyGov (ctx : SysCtx) (st : Snapshot) (dry : Bool) (host : HostExec) : Outcome :=
  match st.pyGet "cpu_governor" with
  | none => oneChange ⟨"cpu_governor", "skipped", "governor path unavailable", none⟩
  | some _ =>
    if dry then
      oneChange ⟨"cpu_governor", "planned", "would set governor to performance",
        some "cpupower frequency-set -g performance"⟩
    else if !ctx.is_root then
      oneChange ⟨"cpu_governor", "skipped", "root required", none⟩
    else if !host.which_cpupower then
      oneChange ⟨"cpu_governor", "skipped", "cpupower not installed", none⟩
    else
      let argv := ["cpupower", "frequency-set", "-g", "performance"]
      let res := host.run argv
      if res.1 == 0 then
        ⟨[⟨"cpu_governor", "applied", "set to performance",
           some "cpupower frequency-set -g performance"⟩], [], [.runCmd argv]⟩
      else
        ⟨[⟨"cpu_governor", "failed", orUnknown res.2.2, none⟩],
         ["cpu_governor: " ++ orUnknown res.2.2], [.runCmd argv]⟩

/-- process nice apply block (Linux only, guarded by `hasattr(os, "nice")`). -/
def applyNice (dry : Bool) (host : HostExec) : Outcome :=
  if !host.has_nice then Outcome.nil
  else if dry then
    oneChange ⟨"process_nice", "planned", "would raise process priority (nice -5)", none⟩
  else
    match host.os_nice (-5) with
    | none => ⟨[⟨"process_nice", "applied", "raised process priority", none⟩], [], [.osNice (-5)]⟩
    | some exc =>
      ⟨[⟨"process_nice", "skipped", "insufficient permission: " ++ exc, none⟩], [], [.osNice (-5)]⟩

/-- swappiness apply block: target value is the literal 10. -/
def applySwap (ctx : SysCtx) (st : Snapshot) (dry : Bool) (host : HostExec) : Outcome :=
  match st.pyGet "swappiness" with
  | none => oneChange ⟨"swappiness", "skipped", "swappiness not available", none⟩
  | some _ =>
    if dry then
      oneChange ⟨"swappiness", "planned", "would set vm.swappiness=10",
        some "sysctl -w vm.swappiness=10"⟩
    else if !ctx.is_root then
      oneChange ⟨"swappiness", "skipped", "root required", none⟩
    else
      let argv := ["sysctl", "-w", "vm.swappiness=10"]
      let res := host.run argv
      if res.1 == 0 then
        ⟨[⟨"swappiness", "applied", "vm.swappiness set to 10", some "sysctl -w vm.swappiness=10"⟩],
         [], [.runCmd argv]⟩
      else
        ⟨[⟨"swappiness", "failed", orUnknown res.2.2, none⟩],
         ["swappiness: " ++ orUnknown res.2.2], [.runCmd argv]⟩

/-- ulimit_nofile apply block: the `int()` conversions for the target
value are outside the `try`, so on malformed snapshot values they would
propagate; only the `setrlimit` call itself is caught. -/
def applyRlimit (st : Snapshot) (dry : Bool) (host : HostExec) : Except String Outcome := do
  let (soft?, hard?) ← rlimitFields st
  match soft?, hard? with
  | some soft, some hard =>
    if dry then
      .ok (oneChange ⟨"ulimit_nofile", "planned", "would raise soft open-file limit", none⟩)
    else do
      let h ← hard.pyInt
      let s ← soft.pyInt
      let target := min h (max s 65535)
      match host.setrlimit target h with
      | none =>
        .ok ⟨[⟨"ulimit_nofile", "applied", "soft limit set to " ++ toString target, none⟩],
             [], [.setRlimit target h]⟩
      | some exc =>
        .ok ⟨[⟨"ulimit_nofile", "skipped", "unable to set rlimit: " ++ exc, none⟩],
             [], [.setRlimit target h]⟩
  | _, _ => .ok (oneChange ⟨"ulimit_nofile", "skipped", "rlimit unavailable", none⟩)

/-- windows_process_priority apply block. -/
def applyWinPriority (dry : Bool) (host : HostExec) : Outcome :=
  if dry then
    oneChange ⟨"windows_process_priority", "planned", "would set HIGH priority", none⟩
  else
    match host.ps_set_high with
    | none => ⟨[⟨"windows_process_priority", "applied", "set HIGH priority", none⟩], [], []⟩
    | some exc => oneChange ⟨"windows_process_priority", "skipped", exc, none⟩

/-- windows_power_plan apply block. -/
def applyWinPower (dry : Bool) (host : HostExec) : Outcome :=
  if dry then
    oneChange ⟨"windows_power_plan", "planned", "would set high performance power plan", none⟩
  else
    let argv := ["powercfg", "/setactive", "SCHEME_MIN"]
    let res := host.run argv
    if res.1 == 0 then
      ⟨[⟨"windows_power_plan", "applied", "set high performance power plan", none⟩],
       [], [.runCmd argv]⟩
    else
      ⟨[⟨"windows_power_plan", "skipped", orMsg res.2.2 "unable to change power plan", none⟩],
       [], [.runCmd argv]⟩

/-- nvidia_persistence apply block, including the `elif not gpu_only`
fallback entry when nvidia-smi is not used. -/
def applyNvidia (ctx : SysCtx) (dry cpu_only gpu_only : Bool) (host : HostExec) : Outcome :=
  if ctx.nvidia_present && !cpu_only then
    if dry then
      oneChange ⟨"nvidia_persistence", "planned", "would enable persistence mode",
        some "nvidia-smi -pm 1"⟩
    else if !ctx.is_root then
      oneChange ⟨"nvidia_persistence", "skipped", "root/admin may be required", none⟩
    else
      let argv := ["nvidia-smi", "-pm", "1"]
      let res := host.run argv
      if res.1 == 0 then
        ⟨[⟨"nvidia_persistence", "applied", "enabled persistence mode", some "nvidia-smi -pm 1"⟩],
         [], [.runCmd argv]⟩
      else
        ⟨[⟨"nvidia_persistence", "skipped", orMsg res.2.2 "unable to enable persistence mode",
           none⟩],
         [], [.runCmd argv]⟩
  else if !gpu_only then
    oneChange ⟨"nvidia_persistence", "skipped", "nvidia-smi not found", none⟩
  else Outcome.nil

/-- `apply_acceleration(ctx, previous_state, dry_run, cpu_only, gpu_only)`. -/
def apply_acceleration (ctx : SysCtx) (st : Snapshot) (dry cpu_only gpu_only : Bool)
    (host : HostExec) : Except String Outcome := do
  let lin ←
    if ctx.is_linux && !gpu_only then do
      let rl ← applyRlimit st dry host
      pure (applyGov ctx st dry host ++ applyNice dry host ++ applySwap ctx st dry host ++ rl)
    else pure Outcome.nil
  let win :=
    if ctx.is_windows && !gpu_only then
      applyWinPriority dry host ++ applyWinPower dry host
    else Outcome.nil
  pure (lin ++ win ++ applyNvidia ctx dry cpu_only gpu_only host)

/-! ## accelerate_command on/off/status (`system_cli.py`) and the
state file (`system_state.py`).

The state file at `.continuum/state/accelerate_state.json` is modelled
as an `Option Payload` (present/absent); `save_state` is an overwrite
recorded as an `Effect.saveState`. -/

/-- The JSON payload written to the state file by `accelerate_command`. -/
structure Payload where
  active : Bool
  platform : String
  timestamp : String
  changes_applied : List Change
  previous_state : Snapshot
  failures : List String
  mode : Option String := none
  message : Option String := none

/-- The `--on` branch of `accelerate_command`: capture, apply, and save
the state file unless dry-run.  Returns the rendered payload, the new
state-file content and the performed effects. -/
def accelerateOn (ctx : SysCtx) (reads : HostReads) (host : HostExec)
    (dry cpu_only gpu_only : Bool) (now : String) (fs : Option Payload) :
    Except String (Payload × Option Payload × List Effect) := do
  let prev := capture_previous_state ctx cpu_only gpu_only reads
  let o ← apply_acceleration ctx prev dry cpu_only gpu_only host
  let payload : Payload :=
    { active := !dry
      platform := ctx.platform
      timestamp := now
      changes_applied := o.changes
      previous_state := prev
      failures := o.failures
      mode := some (if dry then "dry-run" else "on") }
  if dry then
    pure (payload, fs, o.effects)
  else
    pure (payload, some payload, o.effects ++ [.saveState])

/-- The `--off` branch of `accelerate_command`: restore from the loaded
state file; with no state file present nothing is restored and nothing
is written; otherwise the payload (with `active = false`) overwrites the
state file unless dry-run. -/
def accelerateOff (ctx : SysCtx) (host : HostExec) (dry : Bool) (now : String)
    (fs : Option Payload) : Except String (Payload × Option Payload × List Effect) := do
  match fs with
  | none =>
    pure ({ active := false
            platform := ctx.platform
            timestamp := now
            changes_applied := []
            previous_state := []
            failures := []
            mode := some "off"
            message := some "No active acceleration state found." }, fs, [])
  | some existing => do
    let o ← restore_acceleration ctx existing.previous_state dry host
    let payload : Payload :=
      { active := false
        platform := ctx.platform
        timestamp := now
        changes_applied := o.changes
        previous_state := existing.previous_state
        failures := o.failures
        mode := some (if dry then "dry-run" else "off") }
    if dry then
      pure (payload, fs, o.effects)
    else
      pure (payload, some payload, o.effects ++ [.saveState])

/-- The `--status` branch: renders the stored payload, or a default
inactive payload when the state file is absent. -/
def statusPayload (ctx : SysCtx) (now : String) (fs : Option Payload) : Payload :=
  match fs with
  | none =>
    { active := false
      platform := ctx.platform
      timestamp := now
      changes_applied := []
      previous_state := []
      failures := [] }
  | some p => p

/-- The `Active` value `render_status` displays for a status query. -/
def statusReportedActive (ctx : SysCtx) (now : String) (fs : Option Payload) : Bool :=
  (statusPayload ctx now fs).active

/-! ## Sorting (Python `sorted`, ascending, stable) -/

/-- Stable insertion of `a` into a sorted list: `a` is placed before the
first element whose key is not smaller than `a`'s. -/
def insertByKey (key : α → String) (a : α) : List α → List α
  | [] => [a]
  | b :: bs => if strLt (key b) (key a) then b :: insertByKey key a bs else a :: b :: bs

/-- Stable sort by string key, modelling Python `sorted(xs, key=...)`. -/
def sortByKey (key : α → String) : List α → List α
  | [] => []
  | a :: rest => insertByKey key a (sortByKey key rest)

/-! ## models.py: profiles, execution context, action metadata -/

def PROFILE_ORDER : List (String × Int) :=
  [("minimal", 0), ("balanced", 1), ("max", 2), ("expert", 3)]

/-- `PROFILE_ORDER.get(p, default)`. -/
def profileOrderGet (p : String) (dflt : Int) : Int :=
  (List.lookup p PROFILE_ORDER).getD dflt

/-- `normalize_profile` from `models.py`. -/
def normalize_profile (p : String) : String :=
  let candidate := pyLower (pyStrip p)
  if (List.lookup candidate PROFILE_ORDER).isSome then candidate else "balanced"

/-- Execution context from `models.py` / `build_context`. -/
structure ExecCtx where
  os_name : String
  is_linux : Bool
  is_windows : Bool
  is_macos : Bool
  user_is_root : Bool
  has_nvidia_smi : Bool
  doctor_facts : Option JValue
  env : List (String × String)
  cwd : String
  repo_root : String

/-- Python `{**env, k: v}`: replace in place when the key exists,
append otherwise. -/
def envSet (env : List (String × String)) (k v : String) : List (String × String) :=
  if env.any (fun p => p.1 == k) then
    env.map (fun p => if p.1 == k then (p.1, v) else p)
  else env ++ [(k, v)]

/-- An acceleration action: static metadata plus its `check` and `plan`
behaviours.  `Except.error` models the callable raising; the error text
is the `f"{type(exc).__name__}: {exc}"` rendering the plan builder
records. -/
structure PyAction where
  id : String
  title : String
  category : String
  why : String
  risk : String := "low"
  requires_root : Bool := false
  platforms : List String := ["linux", "windows", "macos"]
  profile_min : String := "minimal"
  check : ExecCtx → Except String (Bool × List (String × JValue) × List String)
  plan : ExecCtx → Except String (Bool × List String × List (String × JValue) × List String)

/-! ## registry.py -/

/-- The module registry: a dict keyed by action id, modelled as an
association list in insertion order (Python dicts keep the original
position on overwrite). -/
abbrev Registry := List (String × PyAction)

/-- `register_action`: insert by id, overwriting a prior registration. -/
def register_action (reg : Registry) (a : PyAction) : Registry :=
  if reg.any (fun p => p.1 == a.id) then
    reg.map (fun p => if p.1 == a.id then (p.1, a) else p)
  else reg ++ [(a.id, a)]

/-- `get_actions`: values in ascending key order. -/
def get_actions (reg : Registry) : List PyAction :=
  (sortByKey (fun s => s) (reg.map Prod.fst)).filterMap (fun k => List.lookup k reg)

/-- Set normalisation in `filter_actions`:
`{v.lower() for v in s} if s else None` — `None` and the empty set both
disable the corresponding check. -/
def lowerSet : Option (List String) → Option (List String)
  | some l => if l.isEmpty then none else some (l.map pyLower)
  | none => none

/-- The per-action keep decision of `filter_actions` (categories
parameter already normalised). -/
def filterKeep (only_norm exclude_norm category_norm : Option (List String))
    (required : Int) (a : PyAction) : Bool :=
  let cat := pyLower a.category
  let amin := profileOrderGet a.profile_min 0
  if amin > required then false
  else if (match exclude_norm with | some l => l.contains cat | none => false) then false
  else if (match category_norm with | some l => !(l.contains cat) | none => false) then false
  else if (match only_norm with
           | some l => !(l.contains cat) && !(l.contains (pyLower a.id))
           | none => false) then false
  else true

/-- `filter_actions(actions, only, exclude, profile, categories)`. -/
def filter_actions (actions : List PyAction) (only exclude : Option (List String))
    (profile : String) (categories : Option (List String)) : List PyAction :=
  let required := profileOrderGet profile 1
  let only_norm := lowerSet only
  let exclude_norm := lowerSet exclude
  let category_norm := lowerSet categories
  sortByKey (fun a => a.id)
    (actions.filter (filterKeep only_norm exclude_norm category_norm required))

/-! ## models.py: plan data and AccelerationPlan.create -/

structure ActionDescr where
  action_id : String
  title : String
  category : String
  recommended : Bool
  risk : String
  requires_root : Bool
  supported : Bool
  why : String
  commands : List String
deriving DecidableEq, Repr

def ACCELERATE_SCHEMA_VERSION : String := "launch.v1"

/-- The wall clock observed inside `AccelerationPlan.create`:
`now.isoformat()` and `now.strftime("%Y%m%d%H%M%S")`. -/
structure Timestamp where
  iso : String
  compact : String

structure AccelPlan where
  schema_version : String
  plan_id : String
  created_at : String
  profile : String
  recommendations : List ActionDescr
  warnings : List String
deriving DecidableEq, Repr

/-- `AccelerationPlan.create`.  `hashHex12` stands for the fixed pure
digest `sha1(· .encode()).hexdigest()[:12]` from the Python standard
library. -/
def AccelPlan.create (hashHex12 : String → String) (now : Timestamp) (profile : String)
    (recommendations : List ActionDescr) (warnings : List String)
    (include_timestamp : Bool) : AccelPlan :=
  if include_timestamp then
    { schema_version := ACCELERATE_SCHEMA_VERSION
      plan_id := "launch-" ++ now.compact
      created_at := now.iso
      profile := profile
      recommendations := recommendations
      warnings := warnings }
  else
    let signature :=
      String.intercalate "|"
        (profile :: sortByKey (fun s => s) (recommendations.map (fun r => r.action_id)))
    { schema_version := ACCELERATE_SCHEMA_VERSION
      plan_id := "launch-" ++ hashHex12 signature
      created_at := ""
      profile := profile
      recommendations := recommendations
      warnings := warnings }

/-! ## plugins/loader.py -/

/-- Behaviour of a native plugin module: whether it has a `register`
entry point (and which actions that call registers, plus an optional
exception raised after registering them), and whether it exposes
`pre_apply`/`post_apply` callables. -/
structure PyModule where
  registers : Option (List PyAction × Option String)
  has_pre_apply : Bool
  has_post_apply : Bool

/-- A directory entry of `.hydra/launch.d`. -/
inductive PluginFile where
  | sh (stem : String)
  | py (stem : String) (load : Except String PyModule)
  | other (name : String)

def PluginFile.fileName : PluginFile → String
  | .sh stem => stem ++ ".sh"
  | .py stem _ => stem ++ ".py"
  | .other n => n


structure PluginLoadResult where
  actions_loaded : Nat
  pre_apply_shell : List String
  post_apply_shell : List String
  pre_apply_py : Nat
  post_apply_py : Nat
  warnings : List String
  loaded_files : List String
  failures : List String
deriving DecidableEq, Repr

/-- Loader fold state. -/
structure LoaderState where
  reg : Registry
  actions_loaded : Nat
  pre_sh : List String
  post_sh : List String
  pre_py : Nat
  post_py : Nat
  warnings : List String
  loaded_files : List String
  failures : List String

/-- The `_hook.py` suffix section of the loader body. -/
def hookSection (st : LoaderState) (name : String) (m : PyModule) : LoaderState :=
  if pyEndsWith name "_hook.py" then
    let st1 := if m.has_pre_apply then { st with pre_py := st.pre_py + 1 } else st
    if m.has_post_apply then { st1 with post_py := st1.post_py + 1 } else st1
  else st

/-- One iteration of the loader's per-file loop, with the per-file
`try`/`except` converting failures into warning+failure entries. -/
def loadOneFile (st : LoaderState) (f : PluginFile) : LoaderState :=
  match f with
  | .sh stem =>
    let name := stem ++ ".sh"
    let st := { st with loaded_files := st.loaded_files ++ [name] }
    if strContains stem "post" then { st with post_sh := st.post_sh ++ [name] }
    else { st with pre_sh := st.pre_sh ++ [name] }
  | .other _ => st
  | .py stem load =>
    let name := stem ++ ".py"
    let st := { st with loaded_files := st.loaded_files ++ [name] }
    match load with
    | .error e =>
      let msg := "Plugin load failed for " ++ name ++ ": " ++ e
      { st with warnings := st.warnings ++ [msg], failures := st.failures ++ [msg] }
    | .ok m =>
      match m.registers with
      | some (acts, raised) =>
        let st := { st with reg := acts.foldl register_action st.reg,
                            actions_loaded := st.actions_loaded + acts.length }
        (match raised with
         | some e =>
           let msg := "Plugin load failed for " ++ name ++ ": " ++ e
           { st with warnings := st.warnings ++ [msg], failures := st.failures ++ [msg] }
         | none =>
           let st :=
             if acts.length == 0 then
               { st with warnings :=
                   st.warnings ++ ["Plugin " ++ name ++ " register() did not add actions"] }
             else st
           hookSection st name m)
      | none => hookSection st name m

/-- `load_plugins(register_action, cwd)`: `plugin_dir = none` models a
missing `.hydra/launch.d` directory. -/
def load_plugins (reg0 : Registry) (plugin_dir : Option (List PluginFile)) :
    Registry × PluginLoadResult :=
  match plugin_dir with
  | none => (reg0, ⟨0, [], [], 0, 0, [], [], []⟩)
  | some files =>
    let final :=
      (sortByKey PluginFile.fileName files).foldl loadOneFile
        ⟨reg0, 0, [], [], 0, 0, [], [], []⟩
    (final.reg,
     ⟨final.actions_loaded, final.pre_sh, final.post_sh, final.pre_py, final.post_py,
      final.warnings, sortByKey (fun s => s) final.loaded_files,
      sortByKey (fun s => s) final.failures⟩)

/-! ## plan_builder.py -/

/-- Per-action descriptor evaluation inside `build_plan`: a raising
`check` or `plan` is caught and turned into an unsupported descriptor;
the high-risk downgrade is applied centrally. -/
def evalCore (rctx : ExecCtx) (a : PyAction) : Bool × Bool × List String :=
  match a.check rctx with
  | .error _ => (false, false, ([] : List String))
  | .ok (s, _before, _check_notes) =>
    if s then
      match a.plan rctx with
      | .error _ => (false, false, [])
      | .ok (r, cmds, _after_preview, _plan_notes) => (true, r, cmds)
    else (false, false, [])

def evalDescriptor (rctx : ExecCtx) (expert_mode : Bool) (a : PyAction) : ActionDescr :=
  { action_id := a.id
    title := a.title
    category := a.category
    recommended :=
      if pyLower a.risk == "high" && !expert_mode then false else (evalCore rctx a).2.1
    risk := a.risk
    requires_root := a.requires_root
    supported := (evalCore rctx a).1
    why := a.why
    commands := (evalCore rctx a).2.2 }

/-- `build_plan`: reset registry, register built-ins, load plugins,
filter, evaluate each surviving action, and assemble the plan. -/
def build_plan (ctx : ExecCtx) (builtins : List PyAction)
    (plugin_dir : Option (List PluginFile)) (profile : String)
    (only exclude : Option (List String)) (expert_mode include_timestamp : Bool)
    (hashHex12 : String → String) (now : Timestamp) :
    AccelPlan × ExecCtx × PluginLoadResult :=
  let normalized := normalize_profile profile
  let reg0 := builtins.foldl register_action []
  let loaded := load_plugins reg0 plugin_dir
  let plugin_result := loaded.2
  let all := get_actions loaded.1
  let filtered := filter_actions all only exclude normalized none
  let runtime_ctx := { ctx with env := envSet ctx.env "ACCELERATE_PROFILE" normalized }
  let descriptors := filtered.map (evalDescriptor runtime_ctx expert_mode)
  let plan :=
    AccelPlan.create hashHex12 now normalized descriptors plugin_result.warnings
      include_timestamp
  (plan, runtime_ctx, plugin_result)

/-! ## models.py AccelerationActionResult and reporting.py -/

structure ResultRec where
  action_id : String
  title : String
  supported : Bool
  applied : Bool
  skipped_reason : Option String
  requires_root : Bool
  risk : String
  before : List (String × JValue) := []
  after : List (String × JValue) := []
  commands : List String := []
  errors : List String := []

/-- Python falsiness of an optional string (`not self.skipped_reason`). -/
def pyFalsyStrOpt : Option String → Bool
  | none => true
  | some s => s == ""

/-- `AccelerationActionResult` construction with its `__post_init__`
validation: raises `ValueError` when `applied` is false and the skip
reason is `None` or empty. -/
def mkAccelerationActionResult (action_id title : String) (supported applied : Bool)
    (skipped_reason : Option String) (requires_root : Bool) (risk : String)
    (before after : List (String × JValue)) (commands : List String)
    (errors : List String) : Except String ResultRec :=
  if !applied && pyFalsyStrOpt skipped_reason then
    .error "skipped_reason is required when applied is False"
  else
    .ok ⟨action_id, title, supported, applied, skipped_reason, requires_root, risk,
         before, after, commands, errors⟩

structure Summary where
  applied : Nat
  skipped : Nat
  unsupported : Nat
  total : Nat
deriving DecidableEq, Repr

structure Report where
  schema_version : String
  mode : String
  plan : AccelPlan
  context : ExecCtx
  selected_action_ids : List String
  summary : Summary
  results : List ResultRec
  plugin_summary : PluginLoadResult
  warnings : List String

/-- `build_report` from `reporting.py`. -/
def build_report (plan : AccelPlan) (ctx : ExecCtx) (action_results : List ResultRec)
    (selected_action_ids : List String) (dry_run : Bool)
    (plugin_result : PluginLoadResult) (hook_warnings : List String) : Report :=
  let sorted_results := sortByKey (fun r => r.action_id) action_results
  let applied_count := sorted_results.countP (fun r => r.applied)
  let unsupported_count := sorted_results.countP (fun r => !r.supported)
  let skipped_count := sorted_results.countP (fun r => !r.applied && r.skipped_reason.isSome)
  { schema_version := ACCELERATE_SCHEMA_VERSION
    mode := if dry_run then "dry-run" else "apply"
    plan := plan
    context := ctx
    selected_action_ids := sortByKey (fun s => s) selected_action_ids
    summary := ⟨applied_count, skipped_count, unsupported_count, action_results.length⟩
    results := sorted_results
    plugin_summary := plugin_result
    warnings := plan.warnings ++ hook_warnings }

/-! ## cli.py: the per-action apply loop of `_run_plan_mode` and the
`KeyboardInterrupt` handling of `launch_command`. -/

/-- What one call to `action.apply(ctx)` does: return a result, raise an
`Exception` (caught by the loop), or raise `KeyboardInterrupt` (not an
`Exception`, so it propagates). -/
inductive ApplyOutcome where
  | ok (r : ResultRec)
  | exc (msg : String)
  | interrupt

/-- One entry of `internal_data` with the action handle's metadata and
its runtime apply behaviour. -/
structure InternalItem where
  action_id : String
  title : String
  requires_root : Bool
  risk : String
  supported : Bool
  before : List (String × JValue) := []
  after_preview : List (String × JValue) := []
  commands : List String := []
  applyRun : ApplyOutcome

/-- One iteration of the apply loop; `none` means a `KeyboardInterrupt`
escaped the iteration. -/
def applyLoopStep (selected : List String) (item : InternalItem) : Option ResultRec :=
  if !(selected.contains item.action_id) then
    some ⟨item.action_id, item.title, item.supported, false, some "Not selected",
          item.requires_root, item.risk, item.before, item.after_preview, item.commands, []⟩
  else if !item.supported then
    some ⟨item.action_id, item.title, false, false, some "Unsupported on this environment",
          item.requires_root, item.risk, item.before, item.before, item.commands, []⟩
  else
    match item.applyRun with
    | .ok r => some r
    | .exc msg =>
      some ⟨item.action_id, item.title, true, false, some "Action apply raised an exception",
            item.requires_root, item.risk, item.before, item.before, item.commands, [msg]⟩
    | .interrupt => none

/-- The apply loop itself: a propagating interrupt discards the local
results list. -/
def runApplyLoop (selected : List String) : List InternalItem → Option (List ResultRec)
  | [] => some []
  | item :: rest =>
    match applyLoopStep selected item with
    | none => none
    | some r => (runApplyLoop selected rest).map (fun rs => r :: rs)

/-- The tail of `_run_plan_mode` in apply mode combined with
`launch_command`'s exception handling: on completion the report is built
and persisted (exit 0); a `KeyboardInterrupt` reaches the
`except KeyboardInterrupt` handler, which prints `Interrupted` and exits
130 without building or persisting any report. -/
def runPlanApplyPhase (plan : AccelPlan) (ctx : ExecCtx) (items : List InternalItem)
    (selected : List String) (plugin_result : PluginLoadResult)
    (hook_warnings : List String) : Option Report × Int :=
  match runApplyLoop selected items with
  | some results =>
    (some (build_report plan ctx results selected false plugin_result hook_warnings), 0)
  | none => (none, 130)

/-! ## Statement-side predicates -/

/-- Snapshot values at the two keys whose stored shape the tuner relies
on.  Snapshots produced by `capture_previous_state` always satisfy this
(swappiness is an integer or null; rlimit_nofile is an object or null),
and it is exactly what keeps the `int()` conversions and the
`.get` attribute accesses of the restore/apply passes from raising. -/
def WellShaped (st : Snapshot) : Prop :=
  (∀ v, st.pyGet "swappiness" = some v → ∃ n, v = JValue.int n) ∧
  (∀ v, st.pyGet "rlimit_nofile" = some v → ∃ fs, v = JValue.obj fs)

/-- The fixed universe of tunable names the restore pass can touch, in
source order. -/
def allRestoreTunables : List String :=
  ["cpu_governor", "swappiness", "ulimit_nofile", "nvidia_persistence",
   "windows_process_priority", "windows_power_plan"]

/-- An effect of the restore pass is derived from the captured snapshot:
each executed command or system call targets exactly the value the
snapshot holds for the corresponding tunable (GPU persistence restored
to `1` for a captured `enabled`, `0` for a captured `disabled`). -/
def effectRestoresCaptured (st : Snapshot) : Effect → Prop
  | .runCmd argv =>
      (∃ v, st.pyGet "cpu_governor" = some v ∧ v.truthy = true ∧
        argv = ["cpupower", "frequency-set", "-g", v.pyStr]) ∨
      (∃ n, st.pyGet "swappiness" = some (JValue.int n) ∧
        argv = ["sysctl", "-w", "vm.swappiness=" ++ toString n]) ∨
      (st.pyGet "nvidia_persistence_mode" = some (JValue.str "enabled") ∧
        argv = ["nvidia-smi", "-pm", "1"]) ∨
      (st.pyGet "nvidia_persistence_mode" = some (JValue.str "disabled") ∧
        argv = ["nvidia-smi", "-pm", "0"]) ∨
      (∃ v, st.pyGet "power_plan_guid" = some v ∧ v.truthy = true ∧
        argv = ["powercfg", "/setactive", v.pyStr])
  | .setRlimit s h =>
      ∃ fs soft hard, st.pyGet "rlimit_nofile" = some (JValue.obj fs) ∧
        Snapshot.pyGet fs "soft" = some soft ∧ Snapshot.pyGet fs "hard" = some hard ∧
        soft.pyInt = .ok s ∧ hard.pyInt = .ok h
  | .psSetNice n =>
      ∃ v, st.pyGet "process_priority" = some v ∧ v.pyInt = .ok n
  | .osNice _ => False
  | .saveState => False

/-- The snapshot key each restore change entry is driven by. -/
def snapshotKeyFor (changeName : String) : Option String :=
  if changeName == "cpu_governor" then some "cpu_governor"
  else if changeName == "swappiness" then some "swappiness"
  else if changeName == "ulimit_nofile" then some "rlimit_nofile"
  else if changeName == "nvidia_persistence" then some "nvidia_persistence_mode"
  else if changeName == "windows_process_priority" then some "process_priority"
  else if changeName == "windows_power_plan" then some "power_plan_guid"
  else none

/-- Spec-side description of which tunables a dry-run `--on` records a
change entry for: the tunables applicable to the platform and scope
flags, in the order the apply pass visits them (the nvidia entry also
appears, as a skipped marker, on hosts without nvidia-smi unless
`gpu_only` restricted the run to GPU work). -/
def dryRunApplicableTunables (ctx : SysCtx) (has_nice cpu_only gpu_only : Bool) :
    List String :=
  (if ctx.is_linux && !gpu_only then
     ["cpu_governor"] ++ (if has_nice then ["process_nice"] else [])
       ++ ["swappiness", "ulimit_nofile"]
   else [])
  ++ (if ctx.is_windows && !gpu_only then
        ["windows_process_priority", "windows_power_plan"]
      else [])
  ++ (if ctx.nvidia_present && !cpu_only then ["nvidia_persistence"]
      else if !gpu_only then ["nvidia_persistence"] else [])

/-- Spec-side map from tunable name to the literal command a planned
entry carries: only the three tunables implemented by external commands
(cpu governor, swappiness, GPU persistence) carry one; the tunables
implemented by in-process system calls carry none, and so does the
Windows power plan (whose dry-run entry omits the `powercfg` command). -/
def plannedCommandFor (n : String) : Option String :=
  if n == "cpu_governor" then some "cpupower frequency-set -g performance"
  else if n == "swappiness" then some "sysctl -w vm.swappiness=10"
  else if n == "nvidia_persistence" then some "nvidia-smi -pm 1"
  else none

/-- What dry-run `--on` guarantees for one change entry: every entry is
planned or skipped, a planned entry carries exactly the literal command
`plannedCommandFor` assigns its tunable (none for the in-process ones),
and an entry is skipped only when its captured value was unavailable (or
it is the nvidia fallback marker). -/
def dryPChange (st : Snapshot) (c : Change) : Prop :=
  (c.result = "planned" ∨ c.result = "skipped")
  ∧ (c.result = "planned" → c.command = plannedCommandFor c.name)
  ∧ (c.result = "skipped" →
      ((c.name = "cpu_governor" ∧ st.pyGet "cpu_governor" = none)
        ∨ (c.name = "swappiness" ∧ st.pyGet "swappiness" = none)
        ∨ c.name = "ulimit_nofile" ∨ c.name = "nvidia_persistence"))

/-! ## Concrete fixtures for counterexamples and witnesses -/

/-- A non-root Linux host without nvidia-smi. -/
def ctxLinux : SysCtx := ⟨"linux", true, false, false, false, false⟩

/-- Host reads where no tunable is readable. -/
def readsNone : HostReads := ⟨false, 0, none, none, none, none, none, none⟩

/-- Host reads where every Linux tunable is readable. -/
def readsFull : HostReads :=
  ⟨true, 5, some (1024, 4096), some "powersave", some 60, none, none, none⟩

/-- A host whose commands all fail and whose system calls all succeed. -/
def hostNull : HostExec :=
  ⟨fun _ => (1, "", ""), false, true, fun _ _ => none, fun _ => none, none, fun _ => none⟩

/-- A successful restore run on the Linux fixture, used to instantiate
the restore theorems at a concrete input. -/
def c2out : Outcome :=
  match restore_acceleration ctxLinux
      (capture_previous_state ctxLinux false false readsFull) false hostNull with
  | .ok o => o
  | .error _ => Outcome.nil

/-- Dry-run `--on` on the Linux fixture. -/
def c3run : Except String (Payload × Option Payload × List Effect) :=
  accelerateOn ctxLinux readsFull hostNull true false false "t0" none

def c3changes : List Change :=
  match c3run with
  | .ok (p, _, _) => p.changes_applied
  | .error _ => []

/-- The full result tuple of a non-dry `--on` on the Linux fixture. -/
def c9onr : Payload × Option Payload × List Effect :=
  match accelerateOn ctxLinux readsFull hostNull false false false "t1" none with
  | .ok r => r
  | .error _ => (⟨false, "", "", [], [], [], none, none⟩, none, [])

/-- Non-dry `--on` followed by `--off` on the Linux fixture. -/
def c9fs1 : Option Payload :=
  match accelerateOn ctxLinux readsFull hostNull false false false "t1" none with
  | .ok (_, fs, _) => fs
  | .error _ => none

def c9fs2 : Option Payload :=
  match accelerateOff ctxLinux hostNull false "t2" c9fs1 with
  | .ok (_, fs, _) => fs
  | .error _ => none

/-- Two selected, supported actions; the first one's `apply` raises
`KeyboardInterrupt`. -/
def c7item1 : InternalItem :=
  ⟨"a_first", "First", false, "low", true, [], [], [], .interrupt⟩

def c7item2 : InternalItem :=
  ⟨"b_second", "Second", false, "low", true, [], [], [],
   .ok ⟨"b_second", "Second", true, true, none, false, "low", [], [], [], []⟩⟩

def c7plan : AccelPlan := ⟨"launch.v1", "launch-x", "", "balanced", [], []⟩

def c7ctx : ExecCtx := ⟨"linux", true, false, false, false, false, none, [], "/w", "/w"⟩

def c7plugins : PluginLoadResult := ⟨0, [], [], 0, 0, [], [], []⟩

def c7run : Option Report × Int :=
  runPlanApplyPhase c7plan c7ctx [c7item1, c7item2] ["a_first", "b_second"] c7plugins []

/-- Plugin directory holding `warmup_hook.sh` and one native module
whose `register` entry point adds no actions. -/
def warmupFiles (pstem : String) (hpre hpost : Bool) : List PluginFile :=
  [PluginFile.sh "warmup_hook", PluginFile.py pstem (.ok ⟨some ([], none), hpre, hpost⟩)]

/-- `l` is in the ascending order Python's `sorted(..., key=...)`
produces: no later element's key is strictly below an earlier one's. -/
def KeySorted (key : α → String) (l : List α) : Prop :=
  l.Pairwise (fun x y => strLt (key y) (key x) = false)

/-! # Lemmas about the sort -/

theorem listLt_asymm : ∀ {a b : List Char}, listLt a b = true → listLt b a = false := by
  intro a
  induction a with
  | nil =>
    intro b h
    cases b with
    | nil => simp [listLt] at h
    | cons y ys => simp [listLt]
  | cons x xs ih =>
    intro b h
    cases b with
    | nil => simp [listLt] at h
    | cons y ys =>
      simp only [listLt, Bool.or_eq_true, Bool.and_eq_true, decide_eq_true_eq,
        beq_iff_eq] at h
      simp only [listLt, Bool.or_eq_false_iff, Bool.and_eq_false_iff,
        decide_eq_false_iff_not, beq_eq_false_iff_ne, ne_eq]
      rcases h with h | ⟨heq, hlt⟩
      · exact ⟨by omega, Or.inl (by omega)⟩
      · exact ⟨by omega, Or.inr (ih hlt)⟩

theorem listLt_le_trans : ∀ {a b c : List Char},
    listLt a b = false → listLt b c = false → listLt a c = false := by
  intro a
  induction a with
  | nil =>
    intro b c h1 h2
    cases b with
    | nil =>
      cases c with
      | nil => rfl
      | cons z zs => simp [listLt] at h2
    | cons y ys => simp [listLt] at h1
  | cons x xs ih =>
    intro b c h1 h2
    cases c with
    | nil => rfl
    | cons z zs =>
      cases b with
      | nil => simp [listLt] at h2
      | cons y ys =>
        simp only [listLt, Bool.or_eq_false_iff, Bool.and_eq_false_iff,
          decide_eq_false_iff_not, beq_eq_false_iff_ne, ne_eq] at h1 h2 ⊢
        rcases h1 with ⟨hxy, h1b⟩
        rcases h2 with ⟨hyz, h2b⟩
        refine ⟨by omega, ?_⟩
        rcases h1b with h | h
        · left; omega
        · rcases h2b with h' | h'
          · left; omega
          · right; exact ih h h'

theorem strLt_asymm {a b : String} (h : strLt a b = true) : strLt b a = false :=
  listLt_asymm h

theorem strLt_le_trans {a b c : String} (h1 : strLt a b = false)
    (h2 : strLt b c = false) : strLt a c = false :=
  listLt_le_trans h1 h2

theorem perm_insertByKey (key : α → String) (a : α) (l : List α) :
    (insertByKey key a l).Perm (a :: l) := by
  induction l with
  | nil => simp [insertByKey]
  | cons b bs ih =>
    by_cases h : strLt (key b) (key a) = true
    · simp only [insertByKey, h, if_true]
      exact (ih.cons b).trans (List.Perm.swap a b bs)
    · simp only [insertByKey, h, if_false]
      exact List.Perm.refl _

theorem perm_sortByKey (key : α → String) (l : List α) :
    (sortByKey key l).Perm l := by
  induction l with
  | nil => exact List.Perm.refl _
  | cons a rest ih =>
    exact (perm_insertByKey key a (sortByKey key rest)).trans (ih.cons a)

theorem mem_sortByKey {key : α → String} {l : List α} {a : α} :
    a ∈ sortByKey key l ↔ a ∈ l :=
  (perm_sortByKey key l).mem_iff

theorem keySorted_insertByKey (key : α → String) (a : α) {l : List α}
    (h : KeySorted key l) : KeySorted key (insertByKey key a l) := by
  induction l with
  | nil => simp [insertByKey, KeySorted]
  | cons b bs ih =>
    rw [KeySorted, List.pairwise_cons] at h
    cases hval : strLt (key b) (key a) with
    | true =>
      have hrw : insertByKey key a (b :: bs) = b :: insertByKey key a bs := by
        simp [insertByKey, hval]
      rw [hrw, KeySorted, List.pairwise_cons]
      refine ⟨?_, ih h.2⟩
      intro x hx
      rcases List.mem_cons.1 ((perm_insertByKey key a bs).mem_iff.1 hx) with hxa | hxbs
      · subst hxa
        exact strLt_asymm hval
      · exact h.1 x hxbs
    | false =>
      have hrw : insertByKey key a (b :: bs) = a :: b :: bs := by
        simp [insertByKey, hval]
      rw [hrw, KeySorted, List.pairwise_cons]
      refine ⟨?_, List.Pairwise.cons h.1 h.2⟩
      intro x hx
      rcases List.mem_cons.1 hx with hxb | hxbs
      · subst hxb
        exact hval
      · exact strLt_le_trans (h.1 x hxbs) hval

theorem keySorted_sortByKey (key : α → String) (l : List α) :
    KeySorted key (sortByKey key l) := by
  induction l with
  | nil => simp [sortByKey, KeySorted]
  | cons a rest ih => exact keySorted_insertByKey key a ih

/-! # Per-segment properties of the restore pass -/

theorem Outcome.append_changes (a b : Outcome) : (a ++ b).changes = a.changes ++ b.changes := rfl

theorem Outcome.append_failures (a b : Outcome) :
    (a ++ b).failures = a.failures ++ b.failures := rfl

theorem Outcome.append_effects (a b : Outcome) : (a ++ b).effects = a.effects ++ b.effects := rfl

theorem sublist_singleton_of_or {l : List String} {n : String}
    (h : l = [] ∨ l = [n]) : l.Sublist [n] := by
  rcases h with h | h <;> subst h <;> simp

theorem name_of_mem_of_map_singleton {l : List Change} {n : String}
    (h1 : l.map (fun c => c.name) = [n]) {c : Change} (hc : c ∈ l) : c.name = n := by
  cases l with
  | nil => cases hc
  | cons x xs =>
    cases xs with
    | nil =>
      simp only [List.map_cons, List.map_nil, List.cons.injEq] at h1
      rcases List.mem_singleton.1 hc with rfl
      exact h1.1
    | cons y ys => simp at h1

theorem restoreGov_props (ctx : SysCtx) (st : Snapshot) (dry : Bool) (host : HostExec) :
    ((restoreGov ctx st dry host).changes.map (fun c => c.name) = []
      ∨ (restoreGov ctx st dry host).changes.map (fun c => c.name) = ["cpu_governor"])
    ∧ ((restoreGov ctx st dry host).changes = []
        ∨ (st.pyGet "cpu_governor").isSome = true)
    ∧ (∀ e ∈ (restoreGov ctx st dry host).effects, effectRestoresCaptured st e) := by
  rcases hg : st.pyGet "cpu_governor" with _ | v
  · simp [restoreGov, hg, Outcome.nil]
  · cases ht : v.truthy with
    | false => simp [restoreGov, hg, ht, Outcome.nil]
    | true =>
      cases dry with
      | true => simp [restoreGov, hg, ht, oneChange]
      | false =>
        cases hrc : (ctx.is_root && host.which_cpupower) with
        | false => simp [restoreGov, hg, ht, hrc, oneChange]
        | true =>
          rcases hrun : host.run ["cpupower", "frequency-set", "-g", v.pyStr]
            with ⟨code, sout, serr⟩
          cases hc : (code == 0) with
          | true =>
            refine ⟨Or.inr ?_, Or.inr ?_, ?_⟩
            · simp [restoreGov, hg, ht, hrc, hrun, hc]
            · simp [hg]
            · intro e he
              simp [restoreGov, hg, ht, hrc, hrun, hc] at he
              subst he
              exact Or.inl ⟨v, hg, ht, rfl⟩
          | false =>
            refine ⟨Or.inr ?_, Or.inr ?_, ?_⟩
            · simp [restoreGov, hg, ht, hrc, hrun, hc]
            · simp [hg]
            · intro e he
              simp [restoreGov, hg, ht, hrc, hrun, hc] at he
              subst he
              exact Or.inl ⟨v, hg, ht, rfl⟩

theorem restoreSwap_ok_changes (ctx : SysCtx) (st : Snapshot) (dry : Bool) (host : HostExec)
    (o : Outcome) (h : restoreSwap ctx st dry host = .ok o) :
    (o.changes.map (fun c => c.name) = [] ∨ o.changes.map (fun c => c.name) = ["swappiness"])
    ∧ (o.changes = [] ∨ (st.pyGet "swappiness").isSome = true) := by
  rcases hg : st.pyGet "swappiness" with _ | v
  · unfold restoreSwap at h
    rw [hg] at h
    cases h
    simp [Outcome.nil]
  · unfold restoreSwap at h
    rw [hg] at h
    cases dry with
    | true =>
      simp only [if_true] at h
      cases h
      simp [oneChange, hg]
    | false =>
      simp only [Bool.false_eq_true, if_false] at h
      cases hr : ctx.is_root with
      | false =>
        rw [hr] at h
        simp only [Bool.false_eq_true, if_false] at h
        cases h
        simp [oneChange, hg]
      | true =>
        rw [hr] at h
        simp only [if_true] at h
        rcases hpi : v.pyInt with msg | n
        · rw [hpi] at h
          simp only [bind, Except.bind] at h
          cases h
        · rw [hpi] at h
          simp only [bind, Except.bind] at h
          cases hc : ((host.run ["sysctl", "-w", "vm.swappiness=" ++ toString n]).1 == 0) with
          | true =>
            rw [hc] at h
            simp only [if_true] at h
            cases h
            simp [hg]
          | false =>
            rw [hc] at h
            simp only [Bool.false_eq_true, if_false] at h
            cases h
            simp [hg]

theorem restoreSwap_ok_effects (ctx : SysCtx) (st : Snapshot) (dry : Bool) (host : HostExec)
    (hsw : ∀ v, st.pyGet "swappiness" = some v → ∃ n, v = JValue.int n)
    (o : Outcome) (h : restoreSwap ctx st dry host = .ok o) :
    ∀ e ∈ o.effects, effectRestoresCaptured st e := by
  rcases hg : st.pyGet "swappiness" with _ | v
  · unfold restoreSwap at h
    rw [hg] at h
    cases h
    simp [Outcome.nil]
  · obtain ⟨n, rfl⟩ := hsw v hg
    unfold restoreSwap at h
    rw [hg] at h
    cases dry with
    | true =>
      simp only [if_true] at h
      cases h
      simp [oneChange]
    | false =>
      simp only [Bool.false_eq_true, if_false] at h
      cases hr : ctx.is_root with
      | false =>
        rw [hr] at h
        simp only [Bool.false_eq_true, if_false] at h
        cases h
        simp [oneChange]
      | true =>
        rw [hr] at h
        simp only [if_true] at h
        have hpi : (JValue.int n).pyInt = .ok n := rfl
        rw [hpi] at h
        simp only [bind, Except.bind] at h
        cases hc : ((host.run ["sysctl", "-w", "vm.swappiness=" ++ toString n]).1 == 0) with
        | true =>
          rw [hc] at h
          simp only [if_true] at h
          cases h
          intro e he
          simp at he
          subst he
          exact Or.inr (Or.inl ⟨n, hg, rfl⟩)
        | false =>
          rw [hc] at h
          simp only [Bool.false_eq_true, if_false] at h
          cases h
          intro e he
          simp at he
          subst he
          exact Or.inr (Or.inl ⟨n, hg, rfl⟩)

theorem restoreSwap_isOk (ctx : SysCtx) (st : Snapshot) (dry : Bool) (host : HostExec)
    (hsw : ∀ v, st.pyGet "swappiness" = some v → ∃ n, v = JValue.int n) :
    ∃ o, restoreSwap ctx st dry host = .ok o := by
  rcases hg : st.pyGet "swappiness" with _ | v
  · exact ⟨_, by unfold restoreSwap; rw [hg]⟩
  · obtain ⟨n, rfl⟩ := hsw v hg
    unfold restoreSwap
    simp only [hg]
    cases dry with
    | true => exact ⟨_, rfl⟩
    | false =>
      cases hr : ctx.is_root with
      | false => exact ⟨_, rfl⟩
      | true =>
        rw [show (JValue.int n).pyInt = Except.ok n from rfl]
        simp only [bind, Except.bind]
        cases hc : ((host.run ["sysctl", "-w", "vm.swappiness=" ++ toString n]).1 == 0) with
        | true => exact ⟨_, rfl⟩
        | false => exact ⟨_, rfl⟩

theorem restoreRlimitSeg_ok_props (st : Snapshot) (dry : Bool) (host : HostExec)
    (o : Outcome) (h : restoreRlimitSeg st dry host = .ok o) :
    (o.changes.map (fun c => c.name) = []
      ∨ o.changes.map (fun c => c.name) = ["ulimit_nofile"])
    ∧ (o.changes = [] ∨ (st.pyGet "rlimit_nofile").isSome = true)
    ∧ (∀ e ∈ o.effects, effectRestoresCaptured st e) := by
  rcases hg : st.pyGet "rlimit_nofile" with _ | v
  · have hcalc : restoreRlimitSeg st dry host = .ok Outcome.nil := by
      unfold restoreRlimitSeg rlimitFields
      simp only [hg, bind, Except.bind]
    rw [hcalc] at h
    cases h
    simp [Outcome.nil]
  · cases v with
    | nul =>
      have hcalc : restoreRlimitSeg st dry host = .ok Outcome.nil := by
        unfold restoreRlimitSeg rlimitFields
        simp only [hg, bind, Except.bind]
      rw [hcalc] at h
      cases h
      simp [Outcome.nil]
    | str s =>
      cases hse : (s == "") with
      | true =>
        have hcalc : restoreRlimitSeg st dry host = .ok Outcome.nil := by
          unfold restoreRlimitSeg rlimitFields
          simp only [hg, hse, bind, Except.bind, if_true]
        rw [hcalc] at h
        cases h
        simp [Outcome.nil]
      | false =>
        have hcalc : restoreRlimitSeg st dry host
            = .error "AttributeError: str object has no attribute get" := by
          unfold restoreRlimitSeg rlimitFields
          simp only [hg, hse, bind, Except.bind, Bool.false_eq_true, if_false]
        rw [hcalc] at h
        cases h
    | int n =>
      cases hse : (n == 0) with
      | true =>
        have hcalc : restoreRlimitSeg st dry host = .ok Outcome.nil := by
          unfold restoreRlimitSeg rlimitFields
          simp only [hg, hse, bind, Except.bind, if_true]
        rw [hcalc] at h
        cases h
        simp [Outcome.nil]
      | false =>
        have hcalc : restoreRlimitSeg st dry host
            = .error "AttributeError: int object has no attribute get" := by
          unfold restoreRlimitSeg rlimitFields
          simp only [hg, hse, bind, Except.bind, Bool.false_eq_true, if_false]
        rw [hcalc] at h
        cases h
    | obj fs =>
      have hfields : rlimitFields st = .ok (Snapshot.pyGet fs "soft", Snapshot.pyGet fs "hard") := by
        unfold rlimitFields
        simp only [hg]
      rcases hs : Snapshot.pyGet fs "soft" with _ | soft <;>
        rcases hh : Snapshot.pyGet fs "hard" with _ | hard
      · have hcalc : restoreRlimitSeg st dry host = .ok Outcome.nil := by
          unfold restoreRlimitSeg
          rw [hfields, hs, hh]
          rfl
        rw [hcalc] at h
        cases h
        simp [Outcome.nil]
      · have hcalc : restoreRlimitSeg st dry host = .ok Outcome.nil := by
          unfold restoreRlimitSeg
          rw [hfields, hs, hh]
          rfl
        rw [hcalc] at h
        cases h
        simp [Outcome.nil]
      · have hcalc : restoreRlimitSeg st dry host = .ok Outcome.nil := by
          unfold restoreRlimitSeg
          rw [hfields, hs, hh]
          rfl
        rw [hcalc] at h
        cases h
        simp [Outcome.nil]
      · cases dry with
        | true =>
          have hcalc : restoreRlimitSeg st true host
              = .ok (oneChange ⟨"ulimit_nofile", "planned",
                  "would restore soft=" ++ soft.pyStr ++ ", hard=" ++ hard.pyStr, none⟩) := by
            unfold restoreRlimitSeg
            rw [hfields, hs, hh]
            rfl
          rw [hcalc] at h
          cases h
          simp [oneChange]
        | false =>
          rcases hsi : soft.pyInt with e1 | sNum
          · have hcalc : restoreRlimitSeg st false host
                = .ok (oneChange ⟨"ulimit_nofile", "skipped",
                    "unable to restore rlimit: " ++ e1, none⟩) := by
              unfold restoreRlimitSeg
              rw [hfields, hs, hh]
              simp only [bind, Except.bind, Bool.false_eq_true, if_false, hsi]
            rw [hcalc] at h
            cases h
            simp [oneChange]
          · rcases hhi : hard.pyInt with e2 | hNum
            · have hcalc : restoreRlimitSeg st false host
                  = .ok (oneChange ⟨"ulimit_nofile", "skipped",
                      "unable to restore rlimit: " ++ e2, none⟩) := by
                unfold restoreRlimitSeg
                rw [hfields, hs, hh]
                simp only [bind, Except.bind, Bool.false_eq_true, if_false, hsi, hhi]
              rw [hcalc] at h
              cases h
              simp [oneChange]
            · rcases hsr : host.setrlimit sNum hNum with _ | exc
              · have hcalc : restoreRlimitSeg st false host
                    = .ok ⟨[⟨"ulimit_nofile", "restored",
                        "restored soft=" ++ soft.pyStr ++ ", hard=" ++ hard.pyStr, none⟩],
                        [], [.setRlimit sNum hNum]⟩ := by
                  unfold restoreRlimitSeg
                  rw [hfields, hs, hh]
                  simp only [bind, Except.bind, Bool.false_eq_true, if_false, hsi, hhi, hsr]
                rw [hcalc] at h
                cases h
                refine ⟨Or.inr rfl, Or.inr (by simp [hg]), ?_⟩
                intro e he
                simp at he
                subst he
                exact ⟨fs, soft, hard, hg, hs, hh, hsi, hhi⟩
              · have hcalc : restoreRlimitSeg st false host
                    = .ok ⟨[⟨"ulimit_nofile", "skipped",
                        "unable to restore rlimit: " ++ exc, none⟩],
                        [], [.setRlimit sNum hNum]⟩ := by
                  unfold restoreRlimitSeg
                  rw [hfields, hs, hh]
                  simp only [bind, Except.bind, Bool.false_eq_true, if_false, hsi, hhi, hsr]
                rw [hcalc] at h
                cases h
                refine ⟨Or.inr rfl, Or.inr (by simp [hg]), ?_⟩
                intro e he
                simp at he
                subst he
                exact ⟨fs, soft, hard, hg, hs, hh, hsi, hhi⟩

theorem restoreRlimitSeg_isOk (st : Snapshot) (dry : Bool) (host : HostExec)
    (hrl : ∀ v, st.pyGet "rlimit_nofile" = some v → ∃ fs, v = JValue.obj fs) :
    ∃ o, restoreRlimitSeg st dry host = .ok o := by
  rcases hg : st.pyGet "rlimit_nofile" with _ | v
  · exact ⟨Outcome.nil, by unfold restoreRlimitSeg rlimitFields; rw [hg]; rfl⟩
  · obtain ⟨fs, rfl⟩ := hrl v hg
    have hfields : rlimitFields st = .ok (Snapshot.pyGet fs "soft", Snapshot.pyGet fs "hard") := by
      unfold rlimitFields
      simp only [hg]
    unfold restoreRlimitSeg
    rw [hfields]
    rcases hs : Snapshot.pyGet fs "soft" with _ | soft <;>
      rcases hh : Snapshot.pyGet fs "hard" with _ | hard
    · exact ⟨_, rfl⟩
    · exact ⟨_, rfl⟩
    · exact ⟨_, rfl⟩
    · cases dry with
      | true => exact ⟨_, rfl⟩
      | false =>
        simp only [bind, Except.bind, Bool.false_eq_true, if_false]
        split
        · split
          · exact ⟨_, rfl⟩
          · exact ⟨_, rfl⟩
        · exact ⟨_, rfl⟩
        · exact ⟨_, rfl⟩

theorem restoreNvidia_props (ctx : SysCtx) (st : Snapshot) (dry : Bool) (host : HostExec) :
    ((restoreNvidia ctx st dry host).changes.map (fun c => c.name) = []
      ∨ (restoreNvidia ctx st dry host).changes.map (fun c => c.name) = ["nvidia_persistence"])
    ∧ ((restoreNvidia ctx st dry host).changes = []
        ∨ (st.pyGet "nvidia_persistence_mode").isSome = true)
    ∧ (∀ e ∈ (restoreNvidia ctx st dry host).effects, effectRestoresCaptured st e) := by
  rcases hg : st.pyGet "nvidia_persistence_mode" with _ | v
  · simp [restoreNvidia, hg, Outcome.nil]
  · cases v with
    | nul => simp [restoreNvidia, hg, Outcome.nil]
    | int n => simp [restoreNvidia, hg, Outcome.nil]
    | obj fs => simp [restoreNvidia, hg, Outcome.nil]
    | str s =>
      cases hsed : (s == "enabled" || s == "disabled") with
      | false => simp [restoreNvidia, hg, hsed, Outcome.nil]
      | true =>
        cases dry with
        | true => simp [restoreNvidia, hg, hsed, oneChange]
        | false =>
          cases hr : ctx.is_root with
          | false => simp [restoreNvidia, hg, hsed, hr, oneChange]
          | true =>
            cases hen : (s == "enabled") with
            | true =>
              have hs : s = "enabled" := by
                have := hen
                simp only [beq_iff_eq] at this
                exact this
              subst hs
              cases hc : ((host.run ["nvidia-smi", "-pm", "1"]).1 == 0) with
              | true =>
                refine ⟨Or.inr ?_, Or.inr ?_, ?_⟩
                · simp [restoreNvidia, hg, hr, hc]
                · simp [hg]
                · intro e he
                  simp [restoreNvidia, hg, hr, hc] at he
                  subst he
                  exact Or.inr (Or.inr (Or.inl ⟨hg, rfl⟩))
              | false =>
                refine ⟨Or.inr ?_, Or.inr ?_, ?_⟩
                · simp [restoreNvidia, hg, hr, hc]
                · simp [hg]
                · intro e he
                  simp [restoreNvidia, hg, hr, hc] at he
                  subst he
                  exact Or.inr (Or.inr (Or.inl ⟨hg, rfl⟩))
            | false =>
              have hs : s = "disabled" := by
                have hd : (s == "disabled") = true := by
                  rcases Bool.or_eq_true_iff.1 hsed with h1 | h1
                  · rw [hen] at h1
                    cases h1
                  · exact h1
                simp only [beq_iff_eq] at hd
                exact hd
              subst hs
              cases hc : ((host.run ["nvidia-smi", "-pm", "0"]).1 == 0) with
              | true =>
                refine ⟨Or.inr ?_, Or.inr ?_, ?_⟩
                · simp [restoreNvidia, hg, hr, hc]
                · simp [hg]
                · intro e he
                  simp [restoreNvidia, hg, hr, hc] at he
                  subst he
                  exact Or.inr (Or.inr (Or.inr (Or.inl ⟨hg, rfl⟩)))
              | false =>
                refine ⟨Or.inr ?_, Or.inr ?_, ?_⟩
                · simp [restoreNvidia, hg, hr, hc]
                · simp [hg]
                · intro e he
                  simp [restoreNvidia, hg, hr, hc] at he
                  subst he
                  exact Or.inr (Or.inr (Or.inr (Or.inl ⟨hg, rfl⟩)))

theorem restoreNvidia_disabled_effect (ctx : SysCtx) (st : Snapshot) (host : HostExec)
    (hg : st.pyGet "nvidia_persistence_mode" = some (JValue.str "disabled"))
    (hr : ctx.is_root = true) :
    Effect.runCmd ["nvidia-smi", "-pm", "0"] ∈ (restoreNvidia ctx st false host).effects := by
  cases hc : ((host.run ["nvidia-smi", "-pm", "0"]).1 == 0) <;>
    simp [restoreNvidia, hg, hr, hc]

theorem restoreWinPriority_props (st : Snapshot) (dry : Bool) (host : HostExec) :
    ((restoreWinPriority st dry host).changes.map (fun c => c.name) = []
      ∨ (restoreWinPriority st dry host).changes.map (fun c => c.name)
          = ["windows_process_priority"])
    ∧ ((restoreWinPriority st dry host).changes = []
        ∨ (st.pyGet "process_priority").isSome = true)
    ∧ (∀ e ∈ (restoreWinPriority st dry host).effects, effectRestoresCaptured st e) := by
  rcases hg : st.pyGet "process_priority" with _ | p
  · simp [restoreWinPriority, hg, Outcome.nil]
  · cases dry with
    | true => simp [restoreWinPriority, hg, oneChange]
    | false =>
      rcases hpi : p.pyInt with e1 | n
      · simp [restoreWinPriority, hg, hpi, oneChange]
      · rcases hps : host.ps_set_nice n with _ | exc
        · refine ⟨Or.inr ?_, Or.inr ?_, ?_⟩
          · simp [restoreWinPriority, hg, hpi, hps]
          · simp [hg]
          · intro e he
            simp [restoreWinPriority, hg, hpi, hps] at he
            subst he
            exact ⟨p, hg, hpi⟩
        · refine ⟨Or.inr ?_, Or.inr ?_, ?_⟩
          · simp [restoreWinPriority, hg, hpi, hps]
          · simp [hg]
          · intro e he
            simp [restoreWinPriority, hg, hpi, hps] at he
            subst he
            exact ⟨p, hg, hpi⟩

theorem restoreWinPower_props (st : Snapshot) (dry : Bool) (host : HostExec) :
    ((restoreWinPower st dry host).changes.map (fun c => c.name) = []
      ∨ (restoreWinPower st dry host).changes.map (fun c => c.name) = ["windows_power_plan"])
    ∧ ((restoreWinPower st dry host).changes = []
        ∨ (st.pyGet "power_plan_guid").isSome = true)
    ∧ (∀ e ∈ (restoreWinPower st dry host).effects, effectRestoresCaptured st e) := by
  rcases hg : st.pyGet "power_plan_guid" with _ | pp
  · simp [restoreWinPower, hg, Outcome.nil]
  · cases ht : pp.truthy with
    | false => simp [restoreWinPower, hg, ht, Outcome.nil]
    | true =>
      cases dry with
      | true => simp [restoreWinPower, hg, ht, oneChange]
      | false =>
        cases hc : ((host.run ["powercfg", "/setactive", pp.pyStr]).1 == 0) with
        | true =>
          refine ⟨Or.inr ?_, Or.inr ?_, ?_⟩
          · simp [restoreWinPower, hg, ht, hc]
          · simp [hg]
          · intro e he
            simp [restoreWinPower, hg, ht, hc] at he
            subst he
            exact Or.inr (Or.inr (Or.inr (Or.inr ⟨pp, hg, ht, rfl⟩)))
        | false =>
          refine ⟨Or.inr ?_, Or.inr ?_, ?_⟩
          · simp [restoreWinPower, hg, ht, hc]
          · simp [hg]
          · intro e he
            simp [restoreWinPower, hg, ht, hc] at he
            subst he
            exact Or.inr (Or.inr (Or.inr (Or.inr ⟨pp, hg, ht, rfl⟩)))

theorem seg_key_present {st : Snapshot} {o : Outcome} {segName key : String}
    (hdisj : o.changes.map (fun c => c.name) = []
      ∨ o.changes.map (fun c => c.name) = [segName])
    (hsome : o.changes = [] ∨ (st.pyGet key).isSome = true)
    (hkeyfor : snapshotKeyFor segName = some key)
    {c : Change} (hc : c ∈ o.changes) :
    ∃ k, snapshotKeyFor c.name = some k ∧ (st.pyGet k).isSome = true := by
  rcases hdisj with hmap | hmap
  · rw [List.map_eq_nil] at hmap
    rw [hmap] at hc
    cases hc
  · have hname := name_of_mem_of_map_singleton hmap hc
    rcases hsome with he | hsome
    · rw [he] at hc
      cases hc
    · refine ⟨key, ?_, hsome⟩
      rw [hname]
      exact hkeyfor

/-- Disassembles a successful restore run into its six segments. -/
theorem restore_ok_decompose (ctx : SysCtx) (st : Snapshot) (dry : Bool) (host : HostExec)
    (out : Outcome) (h : restore_acceleration ctx st dry host = .ok out) :
    ∃ lin swapO rlO,
      ((ctx.is_linux = true ∧ restoreSwap ctx st dry host = .ok swapO
          ∧ restoreRlimitSeg st dry host = .ok rlO
          ∧ lin = (restoreGov ctx st dry host ++ swapO) ++ rlO)
        ∨ (ctx.is_linux = false ∧ lin = Outcome.nil))
      ∧ out = (lin ++ (if ctx.nvidia_present then restoreNvidia ctx st dry host
                       else Outcome.nil))
              ++ (if ctx.is_windows then
                    restoreWinPriority st dry host ++ restoreWinPower st dry host
                  else Outcome.nil) := by
  unfold restore_acceleration at h
  cases hl : ctx.is_linux with
  | false =>
    rw [hl] at h
    simp only [Bool.false_eq_true, if_false, bind, Except.bind, pure, Except.pure] at h
    refine ⟨Outcome.nil, Outcome.nil, Outcome.nil, Or.inr ⟨rfl, rfl⟩, ?_⟩
    injection h with h2
    exact h2.symm
  | true =>
    rw [hl] at h
    simp only [if_true, bind, Except.bind, pure, Except.pure] at h
    rcases hswr : restoreSwap ctx st dry host with e | so <;> rw [hswr] at h
    · exact Except.noConfusion h
    · rcases hrlr : restoreRlimitSeg st dry host with e2 | ro <;> rw [hrlr] at h
      · exact Except.noConfusion h
      · refine ⟨(restoreGov ctx st dry host ++ so) ++ ro, so, ro,
          Or.inl ⟨rfl, rfl, rfl, rfl⟩, ?_⟩
        cases h
        rfl

/-- Every change entry of a successful restore run is driven by a
snapshot key that is present with a non-null value, and no tunable is
touched more than once. -/
theorem restore_ok_changes (ctx : SysCtx) (st : Snapshot) (dry : Bool) (host : HostExec)
    (out : Outcome) (h : restore_acceleration ctx st dry host = .ok out) :
    ((out.changes.map (fun c => c.name)).Nodup)
    ∧ (∀ c ∈ out.changes,
        ∃ k, snapshotKeyFor c.name = some k ∧ (st.pyGet k).isSome = true) := by
  obtain ⟨lin, swapO, rlO, hlin, hout⟩ := restore_ok_decompose ctx st dry host out h
  have hgov := restoreGov_props ctx st dry host
  have hnv := restoreNvidia_props ctx st dry host
  have hwp := restoreWinPriority_props st dry host
  have hww := restoreWinPower_props st dry host
  have hlin_names : List.Sublist (lin.changes.map (fun c => c.name))
      (["cpu_governor"] ++ ["swappiness"] ++ ["ulimit_nofile"]) := by
    rcases hlin with ⟨_, hsw, hrl, rfl⟩ | ⟨_, rfl⟩
    · have hs := restoreSwap_ok_changes ctx st dry host swapO hsw
      have hr := restoreRlimitSeg_ok_props st dry host rlO hrl
      simp only [Outcome.append_changes, List.map_append]
      exact List.Sublist.append
        (List.Sublist.append (sublist_singleton_of_or hgov.1)
          (sublist_singleton_of_or hs.1))
        (sublist_singleton_of_or hr.1)
    · exact List.nil_sublist _
  have hnv_names : List.Sublist ((if ctx.nvidia_present then restoreNvidia ctx st dry host
      else Outcome.nil).changes.map (fun c => c.name)) ["nvidia_persistence"] := by
    cases hn : ctx.nvidia_present with
    | false => simp [Outcome.nil]
    | true =>
      simp only [if_true]
      exact sublist_singleton_of_or hnv.1
  have hwin_names : List.Sublist ((if ctx.is_windows then
      restoreWinPriority st dry host ++ restoreWinPower st dry host
      else Outcome.nil).changes.map (fun c => c.name))
      (["windows_process_priority"] ++ ["windows_power_plan"]) := by
    cases hw : ctx.is_windows with
    | false => simp [Outcome.nil]
    | true =>
      simp only [if_true, Outcome.append_changes, List.map_append]
      exact List.Sublist.append (sublist_singleton_of_or hwp.1)
        (sublist_singleton_of_or hww.1)
  constructor
  · have hsub : List.Sublist (out.changes.map (fun c => c.name))
        (((["cpu_governor"] ++ ["swappiness"] ++ ["ulimit_nofile"])
          ++ ["nvidia_persistence"])
        ++ (["windows_process_priority"] ++ ["windows_power_plan"])) := by
      rw [hout]
      simp only [Outcome.append_changes, List.map_append]
      exact List.Sublist.append (List.Sublist.append hlin_names hnv_names) hwin_names
    exact List.Nodup.sublist hsub (by decide)
  · intro c hc
    rw [hout] at hc
    simp only [Outcome.append_changes, List.mem_append] at hc
    rcases hc with (hc | hc) | hc
    · rcases hlin with ⟨_, hsw, hrl, rfl⟩ | ⟨_, rfl⟩
      · simp only [Outcome.append_changes, List.mem_append] at hc
        rcases hc with (hc | hc) | hc
        · exact seg_key_present hgov.1 hgov.2.1 rfl hc
        · have hs := restoreSwap_ok_changes ctx st dry host swapO hsw
          exact seg_key_present hs.1 hs.2 rfl hc
        · have hr := restoreRlimitSeg_ok_props st dry host rlO hrl
          exact seg_key_present hr.1 hr.2.1 rfl hc
      · cases hc
    · cases hn : ctx.nvidia_present with
      | false =>
        rw [hn] at hc
        simp only [Bool.false_eq_true, if_false] at hc
        cases hc
      | true =>
        rw [hn] at hc
        simp only [if_true] at hc
        exact seg_key_present hnv.1 hnv.2.1 rfl hc
    · cases hw : ctx.is_windows with
      | false =>
        rw [hw] at hc
        simp only [Bool.false_eq_true, if_false] at hc
        cases hc
      | true =>
        rw [hw] at hc
        simp only [if_true, Outcome.append_changes, List.mem_append] at hc
        rcases hc with hc | hc
        · exact seg_key_present hwp.1 hwp.2.1 rfl hc
        · exact seg_key_present hww.1 hww.2.1 rfl hc

/-- Every side effect of a successful restore run carries exactly the
captured value of its tunable (over int-shaped swappiness values, as the
capture pass produces). -/
theorem restore_ok_effects (ctx : SysCtx) (st : Snapshot) (dry : Bool) (host : HostExec)
    (hsw : ∀ v, st.pyGet "swappiness" = some v → ∃ n, v = JValue.int n)
    (out : Outcome) (h : restore_acceleration ctx st dry host = .ok out) :
    ∀ e ∈ out.effects, effectRestoresCaptured st e := by
  obtain ⟨lin, swapO, rlO, hlin, hout⟩ := restore_ok_decompose ctx st dry host out h
  intro e he
  rw [hout] at he
  simp only [Outcome.append_effects, List.mem_append] at he
  rcases he with (he | he) | he
  · rcases hlin with ⟨_, hswr, hrlr, rfl⟩ | ⟨_, rfl⟩
    · simp only [Outcome.append_effects, List.mem_append] at he
      rcases he with (he | he) | he
      · exact (restoreGov_props ctx st dry host).2.2 e he
      · exact restoreSwap_ok_effects ctx st dry host hsw swapO hswr e he
      · exact (restoreRlimitSeg_ok_props st dry host rlO hrlr).2.2 e he
    · cases he
  · cases hn : ctx.nvidia_present with
    | false =>
      rw [hn] at he
      simp only [Bool.false_eq_true, if_false] at he
      cases he
    | true =>
      rw [hn] at he
      simp only [if_true] at he
      exact (restoreNvidia_props ctx st dry host).2.2 e he
  · cases hw : ctx.is_windows with
    | false =>
      rw [hw] at he
      simp only [Bool.false_eq_true, if_false] at he
      cases he
    | true =>
      rw [hw] at he
      simp only [if_true, Outcome.append_effects, List.mem_append] at he
      rcases he with he | he
      · exact (restoreWinPriority_props st dry host).2.2 e he
      · exact (restoreWinPower_props st dry host).2.2 e he

/-- With a well-shaped snapshot (as the capture pass produces), the
restore pass never raises. -/
theorem restore_wellShaped_isOk (ctx : SysCtx) (st : Snapshot) (dry : Bool)
    (host : HostExec) (hws : WellShaped st) :
    ∃ out, restore_acceleration ctx st dry host = .ok out := by
  unfold restore_acceleration
  cases hl : ctx.is_linux with
  | false =>
    simp only [Bool.false_eq_true, if_false, bind, Except.bind, pure, Except.pure]
    exact ⟨_, rfl⟩
  | true =>
    simp only [if_true, bind, Except.bind, pure, Except.pure]
    obtain ⟨so, hso⟩ := restoreSwap_isOk ctx st dry host hws.1
    obtain ⟨ro, hro⟩ := restoreRlimitSeg_isOk st dry host hws.2
    rw [hso, hro]
    exact ⟨_, rfl⟩

theorem lookup_isSome_of_pyGet {st : Snapshot} {k : String}
    (h : (st.pyGet k).isSome = true) : (st.lookup? k).isSome = true := by
  unfold Snapshot.pyGet at h
  rcases hl : st.lookup? k with _ | v
  · rw [hl] at h
    cases h
  · rfl

/-! # Structure of snapshots produced by the capture pass -/

theorem capture_map_fst (ctx : SysCtx) (co go : Bool) (reads : HostReads) :
    (capture_previous_state ctx co go reads).map Prod.fst
      = ["nice", "rlimit_nofile"]
        ++ (if ctx.is_linux && !go then ["cpu_governor", "swappiness"] else [])
        ++ (if ctx.nvidia_present && !co then ["nvidia_persistence_mode"] else [])
        ++ (if ctx.is_windows && !go then ["process_priority", "power_plan_guid"] else []) := by
  unfold capture_previous_state
  split_ifs <;> simp

theorem capture_lookup_nice (ctx : SysCtx) (co go : Bool) (reads : HostReads) :
    (capture_previous_state ctx co go reads).lookup? "nice"
      = some (if reads.has_nice then JValue.int reads.nice_val else JValue.nul) := rfl

theorem capture_lookup_rlimit (ctx : SysCtx) (co go : Bool) (reads : HostReads) :
    (capture_previous_state ctx co go reads).lookup? "rlimit_nofile"
      = some (match reads.rlimit_nofile with
              | some (soft, hard) => JValue.obj [("soft", .int soft), ("hard", .int hard)]
              | none => JValue.nul) := rfl

theorem capture_lookup_gov (ctx : SysCtx) (co go : Bool) (reads : HostReads) :
    (capture_previous_state ctx co go reads).lookup? "cpu_governor"
      = if ctx.is_linux && !go then some (jOptStr reads.cpu_governor) else none := by
  unfold capture_previous_state Snapshot.lookup?
  split_ifs <;> simp [List.lookup]

theorem capture_lookup_swap (ctx : SysCtx) (co go : Bool) (reads : HostReads) :
    (capture_previous_state ctx co go reads).lookup? "swappiness"
      = if ctx.is_linux && !go then some (jOptInt reads.swappiness) else none := by
  unfold capture_previous_state Snapshot.lookup?
  split_ifs <;> simp [List.lookup]

theorem capture_lookup_persist (ctx : SysCtx) (co go : Bool) (reads : HostReads) :
    (capture_previous_state ctx co go reads).lookup? "nvidia_persistence_mode"
      = if ctx.nvidia_present && !co then some (jOptPersist reads.nvidia_persistence)
        else none := by
  unfold capture_previous_state Snapshot.lookup?
  split_ifs <;> simp [List.lookup]

theorem capture_lookup_priority (ctx : SysCtx) (co go : Bool) (reads : HostReads) :
    (capture_previous_state ctx co go reads).lookup? "process_priority"
      = if ctx.is_windows && !go then some (jOptInt reads.process_priority) else none := by
  unfold capture_previous_state Snapshot.lookup?
  split_ifs <;> simp [List.lookup]

theorem capture_lookup_power (ctx : SysCtx) (co go : Bool) (reads : HostReads) :
    (capture_previous_state ctx co go reads).lookup? "power_plan_guid"
      = if ctx.is_windows && !go then some (jOptStr reads.power_plan_guid) else none := by
  unfold capture_previous_state Snapshot.lookup?
  split_ifs <;> simp [List.lookup]

theorem capture_pyGet_gov (ctx : SysCtx) (co go : Bool) (reads : HostReads) :
    (capture_previous_state ctx co go reads).pyGet "cpu_governor"
      = if ctx.is_linux && !go then reads.cpu_governor.map JValue.str else none := by
  unfold Snapshot.pyGet
  rw [capture_lookup_gov]
  cases hb : (ctx.is_linux && !go) <;> simp [hb] <;>
    cases reads.cpu_governor <;> simp [jOptStr]

theorem capture_pyGet_swap (ctx : SysCtx) (co go : Bool) (reads : HostReads) :
    (capture_previous_state ctx co go reads).pyGet "swappiness"
      = if ctx.is_linux && !go then reads.swappiness.map JValue.int else none := by
  unfold Snapshot.pyGet
  rw [capture_lookup_swap]
  cases hb : (ctx.is_linux && !go) <;> simp [hb] <;>
    cases reads.swappiness <;> simp [jOptInt]

theorem capture_pyGet_rlimit (ctx : SysCtx) (co go : Bool) (reads : HostReads) :
    (capture_previous_state ctx co go reads).pyGet "rlimit_nofile"
      = reads.rlimit_nofile.map
          (fun p => JValue.obj [("soft", .int p.1), ("hard", .int p.2)]) := by
  unfold Snapshot.pyGet
  rw [capture_lookup_rlimit]
  cases reads.rlimit_nofile with
  | none => rfl
  | some p => cases p with | mk s h => rfl

theorem capture_pyGet_persist (ctx : SysCtx) (co go : Bool) (reads : HostReads) :
    (capture_previous_state ctx co go reads).pyGet "nvidia_persistence_mode"
      = if ctx.nvidia_present && !co then
          reads.nvidia_persistence.map (fun m => JValue.str m.toStr)
        else none := by
  unfold Snapshot.pyGet
  rw [capture_lookup_persist]
  cases hb : (ctx.nvidia_present && !co) <;> simp [hb] <;>
    cases reads.nvidia_persistence <;> simp [jOptPersist]

theorem capture_pyGet_priority (ctx : SysCtx) (co go : Bool) (reads : HostReads) :
    (capture_previous_state ctx co go reads).pyGet "process_priority"
      = if ctx.is_windows && !go then reads.process_priority.map JValue.int else none := by
  unfold Snapshot.pyGet
  rw [capture_lookup_priority]
  cases hb : (ctx.is_windows && !go) <;> simp [hb] <;>
    cases reads.process_priority <;> simp [jOptInt]

theorem capture_pyGet_power (ctx : SysCtx) (co go : Bool) (reads : HostReads) :
    (capture_previous_state ctx co go reads).pyGet "power_plan_guid"
      = if ctx.is_windows && !go then reads.power_plan_guid.map JValue.str else none := by
  unfold Snapshot.pyGet
  rw [capture_lookup_power]
  cases hb : (ctx.is_windows && !go) <;> simp [hb] <;>
    cases reads.power_plan_guid <;> simp [jOptStr]

theorem capture_wellShaped (ctx : SysCtx) (co go : Bool) (reads : HostReads) :
    WellShaped (capture_previous_state ctx co go reads) := by
  constructor
  · intro v hv
    rw [capture_pyGet_swap] at hv
    rcases hb : (ctx.is_linux && !go) with _ | _ <;> rw [hb] at hv
    · cases hv
    · cases hr : reads.swappiness with
      | none => rw [hr] at hv; cases hv
      | some n =>
        rw [hr] at hv
        exact ⟨n, by cases hv; rfl⟩
  · intro v hv
    rw [capture_pyGet_rlimit] at hv
    cases hr : reads.rlimit_nofile with
    | none => rw [hr] at hv; cases hv
    | some p =>
      rw [hr] at hv
      exact ⟨_, by cases hv; rfl⟩

/-! # Claim C1 -/

/-- C1: on any snapshot produced by one capture, the restore pass is
driven solely by the snapshot — it never raises, each tunable gets at
most one change entry, every change entry corresponds to a snapshot key
that is present (a tunable absent from the snapshot produces no entry at
all), every executed command or system call carries exactly the captured
value, and a snapshot recording GPU persistence as disabled makes a
root, non-dry restore run `nvidia-smi -pm 0`. -/
theorem restore_driven_by_snapshot (ctxC : SysCtx) (co go : Bool) (reads : HostReads)
    (ctxR : SysCtx) (dry : Bool) (host : HostExec) :
    ∃ out,
      restore_acceleration ctxR (capture_previous_state ctxC co go reads) dry host
          = .ok out
      ∧ ((out.changes.map (fun c => c.name)).Nodup)
      ∧ (∀ c ∈ out.changes, ∃ k, snapshotKeyFor c.name = some k
          ∧ ((capture_previous_state ctxC co go reads).lookup? k).isSome = true)
      ∧ (∀ e ∈ out.effects,
          effectRestoresCaptured (capture_previous_state ctxC co go reads) e)
      ∧ ((capture_previous_state ctxC co go reads).pyGet "nvidia_persistence_mode"
            = some (JValue.str "disabled") → ctxR.nvidia_present = true → dry = false →
          ctxR.is_root = true →
            Effect.runCmd ["nvidia-smi", "-pm", "0"] ∈ out.effects) := by
  obtain ⟨out, hok⟩ := restore_wellShaped_isOk ctxR
    (capture_previous_state ctxC co go reads) dry host (capture_wellShaped ctxC co go reads)
  have hch := restore_ok_changes ctxR (capture_previous_state ctxC co go reads) dry host
    out hok
  refine ⟨out, hok, hch.1, ?_, ?_, ?_⟩
  · intro c hc
    obtain ⟨k, hk, hsome⟩ := hch.2 c hc
    exact ⟨k, hk, lookup_isSome_of_pyGet hsome⟩
  · exact restore_ok_effects ctxR (capture_previous_state ctxC co go reads) dry host
      (capture_wellShaped ctxC co go reads).1 out hok
  · intro hdis hnv hdry hroot
    subst hdry
    obtain ⟨lin, so, ro, hlin, hout⟩ := restore_ok_decompose ctxR
      (capture_previous_state ctxC co go reads) false host out hok
    rw [hout]
    simp only [Outcome.append_effects, List.mem_append, hnv, if_true]
    exact Or.inl (Or.inr (restoreNvidia_disabled_effect ctxR
      (capture_previous_state ctxC co go reads) host hdis hroot))

/-- C1 witness: the restore guarantees instantiated on the concrete
Linux fixture. -/
theorem restore_driven_by_snapshot_witness :
    ∃ out,
      restore_acceleration ctxLinux
          (capture_previous_state ctxLinux false false readsFull) false hostNull
          = .ok out
      ∧ ((out.changes.map (fun c => c.name)).Nodup)
      ∧ (∀ c ∈ out.changes, ∃ k, snapshotKeyFor c.name = some k
          ∧ ((capture_previous_state ctxLinux false false readsFull).lookup? k).isSome
              = true)
      ∧ (∀ e ∈ out.effects,
          effectRestoresCaptured (capture_previous_state ctxLinux false false readsFull) e)
      ∧ ((capture_previous_state ctxLinux false false readsFull).pyGet
            "nvidia_persistence_mode" = some (JValue.str "disabled") →
          ctxLinux.nvidia_present = true → false = false → ctxLinux.is_root = true →
            Effect.runCmd ["nvidia-smi", "-pm", "0"] ∈ out.effects) :=
  restore_driven_by_snapshot ctxLinux false false readsFull ctxLinux false hostNull

/-! # Claim C2 -/

/-- C2 counterexample: on a Linux host whose governor file cannot be
read, the snapshot still contains the `cpu_governor` key, stored with
the JSON null placeholder — the claim says an unreadable tunable is
absent from the snapshot. -/
theorem capture_null_placeholder_counterexample :
    readsNone.cpu_governor = none
    ∧ Snapshot.lookup? (capture_previous_state ctxLinux false false readsNone)
        "cpu_governor" = some JValue.nul :=
  ⟨rfl, rfl⟩

/-- C2 (amended): the snapshot contains a key for every tunable
applicable to the platform and scope flags — a tunable that cannot be
read is stored with an explicit JSON null (`jOptStr none` etc.), not
omitted — `nice` and `rlimit_nofile` are always present, and the restore
path treats a null value exactly like an absent key (it never produces a
change entry for a key whose value is null or missing). -/
theorem capture_placeholder_amended (ctx : SysCtx) (co go : Bool) (reads : HostReads) :
    ((capture_previous_state ctx co go reads).map Prod.fst
        = ["nice", "rlimit_nofile"]
          ++ (if ctx.is_linux && !go then ["cpu_governor", "swappiness"] else [])
          ++ (if ctx.nvidia_present && !co then ["nvidia_persistence_mode"] else [])
          ++ (if ctx.is_windows && !go then ["process_priority", "power_plan_guid"]
              else []))
    ∧ (capture_previous_state ctx co go reads).lookup? "nice"
        = some (if reads.has_nice then JValue.int reads.nice_val else JValue.nul)
    ∧ (capture_previous_state ctx co go reads).lookup? "rlimit_nofile"
        = some (match reads.rlimit_nofile with
                | some (soft, hard) =>
                    JValue.obj [("soft", .int soft), ("hard", .int hard)]
                | none => JValue.nul)
    ∧ (capture_previous_state ctx co go reads).lookup? "cpu_governor"
        = (if ctx.is_linux && !go then some (jOptStr reads.cpu_governor) else none)
    ∧ (capture_previous_state ctx co go reads).lookup? "swappiness"
        = (if ctx.is_linux && !go then some (jOptInt reads.swappiness) else none)
    ∧ (capture_previous_state ctx co go reads).lookup? "nvidia_persistence_mode"
        = (if ctx.nvidia_present && !co then some (jOptPersist reads.nvidia_persistence)
           else none)
    ∧ (capture_previous_state ctx co go reads).lookup? "process_priority"
        = (if ctx.is_windows && !go then some (jOptInt reads.process_priority) else none)
    ∧ (capture_previous_state ctx co go reads).lookup? "power_plan_guid"
        = (if ctx.is_windows && !go then some (jOptStr reads.power_plan_guid) else none)
    ∧ (∀ ctx' st dry host out, restore_acceleration ctx' st dry host = .ok out →
        ∀ c ∈ out.changes,
          ∃ k, snapshotKeyFor c.name = some k ∧ (st.pyGet k).isSome = true) :=
  ⟨capture_map_fst ctx co go reads,
   capture_lookup_nice ctx co go reads,
   capture_lookup_rlimit ctx co go reads,
   capture_lookup_gov ctx co go reads,
   capture_lookup_swap ctx co go reads,
   capture_lookup_persist ctx co go reads,
   capture_lookup_priority ctx co go reads,
   capture_lookup_power ctx co go reads,
   fun ctx' st dry host out h =>
     (restore_ok_changes ctx' st dry host out h).2⟩

/-- C2 witness: the restore-skips-null guarantee discharged on a
concrete restore run. -/
theorem capture_placeholder_amended_witness :
    ∃ k, snapshotKeyFor "cpu_governor" = some k
      ∧ ((capture_previous_state ctxLinux false false readsFull).pyGet k).isSome
          = true := by
  refine (capture_placeholder_amended ctxLinux false false readsFull).2.2.2.2.2.2.2.2
    ctxLinux (capture_previous_state ctxLinux false false readsFull) false hostNull
    c2out rfl
    ⟨"cpu_governor", "skipped", "root/cpupower unavailable for restore", none⟩ ?_
  decide

/-! # Dry-run behaviour of the apply pass -/

theorem applyGov_dry_props (ctx : SysCtx) (st : Snapshot) (host : HostExec) :
    (applyGov ctx st true host).effects = []
    ∧ (applyGov ctx st true host).changes.map (fun c => c.name) = ["cpu_governor"]
    ∧ ∀ c ∈ (applyGov ctx st true host).changes, dryPChange st c := by
  rcases hg : st.pyGet "cpu_governor" with _ | v
  · refine ⟨?_, ?_, ?_⟩
    · simp [applyGov, hg, oneChange]
    · simp [applyGov, hg, oneChange]
    · intro c hc
      simp only [applyGov, hg, oneChange, if_true, List.mem_singleton] at hc
      subst hc
      exact ⟨Or.inr rfl, fun hpl => absurd hpl (by decide),
        fun _ => Or.inl ⟨rfl, hg⟩⟩
  · refine ⟨?_, ?_, ?_⟩
    · simp [applyGov, hg, oneChange]
    · simp [applyGov, hg, oneChange]
    · intro c hc
      simp only [applyGov, hg, oneChange, if_true, List.mem_singleton] at hc
      subst hc
      exact ⟨Or.inl rfl, fun _ => rfl, fun hsk => absurd hsk (by decide)⟩

theorem applyNice_dry_props (st : Snapshot) (host : HostExec) :
    (applyNice true host).effects = []
    ∧ (applyNice true host).changes.map (fun c => c.name)
        = (if host.has_nice then ["process_nice"] else [])
    ∧ ∀ c ∈ (applyNice true host).changes, dryPChange st c := by
  cases hn : host.has_nice with
  | false =>
    refine ⟨?_, ?_, ?_⟩
    · simp [applyNice, hn, Outcome.nil]
    · simp [applyNice, hn, Outcome.nil]
    · intro c hc
      simp [applyNice, hn, Outcome.nil] at hc
  | true =>
    refine ⟨?_, ?_, ?_⟩
    · simp [applyNice, hn, oneChange]
    · simp [applyNice, hn, oneChange]
    · intro c hc
      simp only [applyNice, hn, Bool.not_true, Bool.false_eq_true, if_false, if_true,
        oneChange, List.mem_singleton] at hc
      subst hc
      exact ⟨Or.inl rfl, fun _ => rfl, fun hsk => absurd hsk (by decide)⟩

theorem applySwap_dry_props (ctx : SysCtx) (st : Snapshot) (host : HostExec) :
    (applySwap ctx st true host).effects = []
    ∧ (applySwap ctx st true host).changes.map (fun c => c.name) = ["swappiness"]
    ∧ ∀ c ∈ (applySwap ctx st true host).changes, dryPChange st c := by
  rcases hg : st.pyGet "swappiness" with _ | v
  · refine ⟨?_, ?_, ?_⟩
    · simp [applySwap, hg, oneChange]
    · simp [applySwap, hg, oneChange]
    · intro c hc
      simp only [applySwap, hg, oneChange, if_true, List.mem_singleton] at hc
      subst hc
      exact ⟨Or.inr rfl, fun hpl => absurd hpl (by decide),
        fun _ => Or.inr (Or.inl ⟨rfl, hg⟩)⟩
  · refine ⟨?_, ?_, ?_⟩
    · simp [applySwap, hg, oneChange]
    · simp [applySwap, hg, oneChange]
    · intro c hc
      simp only [applySwap, hg, oneChange, if_true, List.mem_singleton] at hc
      subst hc
      exact ⟨Or.inl rfl, fun _ => rfl, fun hsk => absurd hsk (by decide)⟩

theorem applyRlimit_dry_props (st : Snapshot) (host : HostExec)
    (hrl : ∀ v, st.pyGet "rlimit_nofile" = some v → ∃ fs, v = JValue.obj fs) :
    ∃ o, applyRlimit st true host = .ok o
      ∧ o.effects = []
      ∧ o.changes.map (fun c => c.name) = ["ulimit_nofile"]
      ∧ ∀ c ∈ o.changes, dryPChange st c := by
  have hplanned : ∀ c ∈ (oneChange ⟨"ulimit_nofile", "planned",
      "would raise soft open-file limit", none⟩).changes, dryPChange st c := by
    intro c hc
    simp only [oneChange, List.mem_singleton] at hc
    subst hc
    exact ⟨Or.inl rfl, fun _ => rfl, fun hsk => absurd hsk (by decide)⟩
  have hskipped : ∀ c ∈ (oneChange ⟨"ulimit_nofile", "skipped",
      "rlimit unavailable", none⟩).changes, dryPChange st c := by
    intro c hc
    simp only [oneChange, List.mem_singleton] at hc
    subst hc
    exact ⟨Or.inr rfl, fun hpl => absurd hpl (by decide),
      fun _ => Or.inr (Or.inr (Or.inl rfl))⟩
  rcases hg : st.pyGet "rlimit_nofile" with _ | v
  · refine ⟨oneChange ⟨"ulimit_nofile", "skipped", "rlimit unavailable", none⟩,
      ?_, rfl, rfl, hskipped⟩
    unfold applyRlimit rlimitFields
    rw [hg]
    rfl
  · obtain ⟨fs, rfl⟩ := hrl v hg
    have hfields : rlimitFields st
        = .ok (Snapshot.pyGet fs "soft", Snapshot.pyGet fs "hard") := by
      unfold rlimitFields
      simp only [hg]
    rcases hs : Snapshot.pyGet fs "soft" with _ | soft <;>
      rcases hh : Snapshot.pyGet fs "hard" with _ | hard
    · refine ⟨oneChange ⟨"ulimit_nofile", "skipped", "rlimit unavailable", none⟩,
        ?_, rfl, rfl, hskipped⟩
      unfold applyRlimit
      rw [hfields, hs, hh]
      rfl
    · refine ⟨oneChange ⟨"ulimit_nofile", "skipped", "rlimit unavailable", none⟩,
        ?_, rfl, rfl, hskipped⟩
      unfold applyRlimit
      rw [hfields, hs, hh]
      rfl
    · refine ⟨oneChange ⟨"ulimit_nofile", "skipped", "rlimit unavailable", none⟩,
        ?_, rfl, rfl, hskipped⟩
      unfold applyRlimit
      rw [hfields, hs, hh]
      rfl
    · refine ⟨oneChange ⟨"ulimit_nofile", "planned", "would raise soft open-file limit",
        none⟩, ?_, rfl, rfl, hplanned⟩
      unfold applyRlimit
      rw [hfields, hs, hh]
      rfl

theorem applyWinPriority_dry_props (st : Snapshot) (host : HostExec) :
    (applyWinPriority true host).effects = []
    ∧ (applyWinPriority true host).changes.map (fun c => c.name)
        = ["windows_process_priority"]
    ∧ ∀ c ∈ (applyWinPriority true host).changes, dryPChange st c := by
  refine ⟨?_, ?_, ?_⟩
  · simp [applyWinPriority, oneChange]
  · simp [applyWinPriority, oneChange]
  · intro c hc
    simp only [applyWinPriority, if_true, oneChange, List.mem_singleton] at hc
    subst hc
    exact ⟨Or.inl rfl, fun _ => rfl, fun hsk => absurd hsk (by decide)⟩

theorem applyWinPower_dry_props (st : Snapshot) (host : HostExec) :
    (applyWinPower true host).effects = []
    ∧ (applyWinPower true host).changes.map (fun c => c.name) = ["windows_power_plan"]
    ∧ ∀ c ∈ (applyWinPower true host).changes, dryPChange st c := by
  refine ⟨?_, ?_, ?_⟩
  · simp [applyWinPower, oneChange]
  · simp [applyWinPower, oneChange]
  · intro c hc
    simp only [applyWinPower, if_true, oneChange, List.mem_singleton] at hc
    subst hc
    exact ⟨Or.inl rfl, fun _ => rfl, fun hsk => absurd hsk (by decide)⟩

theorem applyNvidia_dry_props (ctx : SysCtx) (st : Snapshot) (co go : Bool)
    (host : HostExec) :
    (applyNvidia ctx true co go host).effects = []
    ∧ (applyNvidia ctx true co go host).changes.map (fun c => c.name)
        = (if ctx.nvidia_present && !co then ["nvidia_persistence"]
           else if !go then ["nvidia_persistence"] else [])
    ∧ ∀ c ∈ (applyNvidia ctx true co go host).changes, dryPChange st c := by
  cases hn : (ctx.nvidia_present && !co) with
  | true =>
    refine ⟨?_, ?_, ?_⟩
    · simp [applyNvidia, hn, oneChange]
    · simp [applyNvidia, hn, oneChange]
    · intro c hc
      simp only [applyNvidia, hn, if_true, oneChange, List.mem_singleton] at hc
      subst hc
      exact ⟨Or.inl rfl, fun _ => rfl, fun hsk => absurd hsk (by decide)⟩
  | false =>
    cases hgo : go with
    | false =>
      refine ⟨?_, ?_, ?_⟩
      · simp [applyNvidia, hn, oneChange]
      · simp [applyNvidia, hn, oneChange]
      · intro c hc
        simp only [applyNvidia, hn, Bool.false_eq_true, if_false, Bool.not_false,
          if_true, oneChange, List.mem_singleton] at hc
        subst hc
        exact ⟨Or.inr rfl, fun hpl => absurd hpl (by decide),
          fun _ => Or.inr (Or.inr (Or.inr rfl))⟩
    | true =>
      refine ⟨?_, ?_, ?_⟩
      · simp [applyNvidia, hn, Outcome.nil]
      · simp [applyNvidia, hn, Outcome.nil]
      · intro c hc
        simp [applyNvidia, hn, Outcome.nil] at hc

/-- Dry-run apply: never raises, performs no side effect, records one
entry per applicable tunable (in source order), and every entry
satisfies the planned/skipped and literal-command discipline. -/
theorem apply_dry_props (ctx : SysCtx) (st : Snapshot) (host : HostExec) (co go : Bool)
    (hws : WellShaped st) :
    ∃ o, apply_acceleration ctx st true co go host = .ok o
      ∧ o.effects = []
      ∧ o.changes.map (fun c => c.name) = dryRunApplicableTunables ctx host.has_nice co go
      ∧ ∀ c ∈ o.changes, dryPChange st c := by
  have hgov := applyGov_dry_props ctx st host
  have hnice := applyNice_dry_props st host
  have hswap := applySwap_dry_props ctx st host
  obtain ⟨rlO, hrlOk, hrlEff, hrlNames, hrlP⟩ := applyRlimit_dry_props st host hws.2
  have hwp := applyWinPriority_dry_props st host
  have hww := applyWinPower_dry_props st host
  have hnv := applyNvidia_dry_props ctx st co go host
  unfold apply_acceleration
  cases hlg : (ctx.is_linux && !go) with
  | false =>
    simp only [Bool.false_eq_true, if_false, bind, Except.bind, pure, Except.pure]
    refine ⟨_, rfl, ?_, ?_, ?_⟩
    · cases hwg : (ctx.is_windows && !go) <;>
        simp [Outcome.append_effects, Outcome.nil, hwg, hnv.1, hwp.1, hww.1]
    · simp only [Outcome.append_changes, List.map_append, dryRunApplicableTunables, hlg,
        Bool.false_eq_true, if_false, Outcome.nil, List.map_nil, List.nil_append]
      cases hwg : (ctx.is_windows && !go) <;>
        simp [hwg, Outcome.append_changes, Outcome.nil, hnv.2.1, hwp.2.1, hww.2.1]
    · intro c hc
      simp only [Outcome.append_changes, Outcome.nil, List.nil_append,
        List.mem_append] at hc
      rcases hc with hc | hc
      · cases hwg : (ctx.is_windows && !go) with
        | false =>
          rw [hwg] at hc
          simp only [Bool.false_eq_true, if_false, Outcome.nil] at hc
          cases hc
        | true =>
          rw [hwg] at hc
          simp only [if_true, Outcome.append_changes, List.mem_append] at hc
          rcases hc with hc | hc
          · exact hwp.2.2 c hc
          · exact hww.2.2 c hc
      · exact hnv.2.2 c hc
  | true =>
    simp only [if_true, bind, Except.bind, pure, Except.pure, hrlOk]
    refine ⟨_, rfl, ?_, ?_, ?_⟩
    · cases hwg : (ctx.is_windows && !go) <;>
        simp [Outcome.append_effects, Outcome.nil, hwg, hnv.1, hwp.1, hww.1, hgov.1,
          hnice.1, hswap.1, hrlEff]
    · simp only [Outcome.append_changes, List.map_append, dryRunApplicableTunables, hlg,
        if_true, hgov.2.1, hnice.2.1, hswap.2.1, hrlNames]
      cases hwg : (ctx.is_windows && !go) <;> cases hnb : host.has_nice <;>
        simp [hwg, hnb, Outcome.append_changes, Outcome.nil, hnv.2.1, hwp.2.1, hww.2.1,
          List.map_append]
    · intro c hc
      simp only [Outcome.append_changes, List.mem_append] at hc
      rcases hc with ((hc | hc) | hc) | hc
      · rcases hc with (hc | hc) | hc
        · exact hgov.2.2 c hc
        · exact hnice.2.2 c hc
        · exact hswap.2.2 c hc
      · exact hrlP c hc
      · cases hwg : (ctx.is_windows && !go) with
        | false =>
          rw [hwg] at hc
          simp only [Bool.false_eq_true, if_false, Outcome.nil] at hc
          cases hc
        | true =>
          rw [hwg] at hc
          simp only [if_true, Outcome.append_changes, List.mem_append] at hc
          rcases hc with hc | hc
          · exact hwp.2.2 c hc
          · exact hww.2.2 c hc
      · exact hnv.2.2 c hc

/-! # Claim C6 -/

/-- C6: constructing an `AccelerationActionResult` with `applied = false`
and an absent or empty `skipped_reason` raises `ValueError`, and
construction succeeds exactly when `applied` is true or a non-empty skip
reason is given. -/
theorem result_requires_skip_reason (action_id title : String) (supported applied : Bool)
    (skipped_reason : Option String) (requires_root : Bool) (risk : String)
    (before after : List (String × JValue)) (commands errors : List String) :
    (mkAccelerationActionResult action_id title supported applied skipped_reason
        requires_root risk before after commands errors).isOk = true ↔
      (applied = true ∨ ∃ s, skipped_reason = some s ∧ s ≠ "") := by
  unfold mkAccelerationActionResult
  cases applied with
  | true => simp [Except.isOk, Except.toBool]
  | false =>
    cases skipped_reason with
    | none => simp [pyFalsyStrOpt, Except.isOk, Except.toBool]
    | some s =>
      by_cases hs : s = ""
      · subst hs
        simp [pyFalsyStrOpt, Except.isOk, Except.toBool]
      · simp [pyFalsyStrOpt, hs, Except.isOk, Except.toBool]

/-! # Claim C4 -/

theorem filterKeep_eq_true_iff (onlyN excludeN : Option (List String)) (req : Int)
    (a : PyAction) :
    filterKeep onlyN excludeN none req a = true ↔
      (profileOrderGet a.profile_min 0 ≤ req
        ∧ (∀ l, excludeN = some l → pyLower a.category ∉ l)
        ∧ (∀ l, onlyN = some l → (pyLower a.category ∈ l ∨ pyLower a.id ∈ l))) := by
  rcases excludeN with _ | le <;> rcases onlyN with _ | lo <;>
    simp only [filterKeep] <;>
    split_ifs <;>
    simp_all [List.elem_iff, not_lt] <;>
    tauto

/-- C4: `filter_actions` keeps exactly the actions whose minimum-profile
rank does not exceed the active profile's rank, whose (lower-cased)
category is not in the exclude set, and — when the only set is non-empty
— whose category or exact id is in the only set; matching is
case-insensitive, an empty or absent set imposes no constraint, and an
action excluded by category is dropped regardless of the only set. -/
theorem filter_actions_spec (actions : List PyAction)
    (only exclude : Option (List String)) (profile : String) (a : PyAction) :
    a ∈ filter_actions actions only exclude profile none ↔
      (a ∈ actions
        ∧ profileOrderGet a.profile_min 0 ≤ profileOrderGet profile 1
        ∧ (∀ l, lowerSet exclude = some l → pyLower a.category ∉ l)
        ∧ (∀ l, lowerSet only = some l →
            (pyLower a.category ∈ l ∨ pyLower a.id ∈ l))) := by
  unfold filter_actions
  rw [mem_sortByKey, List.mem_filter]
  have hln : (lowerSet none : Option (List String)) = none := rfl
  rw [hln, filterKeep_eq_true_iff]

/-! # Claim C5 -/

/-- C5: with timestamp inclusion disabled, plan construction does not
depend on the wall clock (two runs on identical inputs give identical
plans), the descriptor list is in ascending action-id order, the plan id
is the stable digest of the profile and the sorted action ids, and no
creation time is recorded. -/
theorem build_plan_deterministic (ctx : ExecCtx) (builtins : List PyAction)
    (plugin_dir : Option (List PluginFile)) (profile : String)
    (only exclude : Option (List String)) (expert_mode : Bool)
    (hashHex12 : String → String) (now1 now2 : Timestamp) :
    build_plan ctx builtins plugin_dir profile only exclude expert_mode false hashHex12 now1
        = build_plan ctx builtins plugin_dir profile only exclude expert_mode false hashHex12
            now2
      ∧ KeySorted (fun d => d.action_id)
          (build_plan ctx builtins plugin_dir profile only exclude expert_mode false
              hashHex12 now1).1.recommendations
      ∧ (build_plan ctx builtins plugin_dir profile only exclude expert_mode false
            hashHex12 now1).1.plan_id
          = "launch-" ++ hashHex12 (String.intercalate "|"
              (normalize_profile profile ::
                sortByKey (fun s => s)
                  ((build_plan ctx builtins plugin_dir profile only exclude expert_mode false
                      hashHex12 now1).1.recommendations.map (fun r => r.action_id))))
      ∧ (build_plan ctx builtins plugin_dir profile only exclude expert_mode false
            hashHex12 now1).1.created_at = "" := by
  refine ⟨rfl, ?_, rfl, rfl⟩
  exact List.pairwise_map.mpr
    (keySorted_sortByKey (fun a : PyAction => a.id) _)

/-! # Claim C10 -/

theorem countP_applied_add_skipped (results : List ResultRec)
    (h : ∀ r ∈ results, r.applied = true ∨ ∃ s, r.skipped_reason = some s ∧ s ≠ "") :
    results.countP (fun r => r.applied)
        + results.countP (fun r => !r.applied && r.skipped_reason.isSome)
      = results.length := by
  induction results with
  | nil => rfl
  | cons r rs ih =>
    have hr := h r (List.mem_cons_self r rs)
    have ih' := ih (fun x hx => h x (List.mem_cons_of_mem r hx))
    cases ha : r.applied with
    | true =>
      simp [List.countP_cons, ha]
      omega
    | false =>
      rcases hr with h1 | ⟨s, hs, _⟩
      · rw [ha] at h1
        cases h1
      · simp [List.countP_cons, ha, hs]
        omega

/-- C10: for well-formed results (every non-applied result carries a
non-empty skip reason), `build_report`'s summary satisfies
`applied + skipped = total`. -/
theorem report_summary_consistent (plan : AccelPlan) (ctx : ExecCtx)
    (results : List ResultRec) (selected : List String) (dry : Bool)
    (plugin : PluginLoadResult) (hooks : List String)
    (h : ∀ r ∈ results, r.applied = true ∨ ∃ s, r.skipped_reason = some s ∧ s ≠ "") :
    (build_report plan ctx results selected dry plugin hooks).summary.applied
        + (build_report plan ctx results selected dry plugin hooks).summary.skipped
      = (build_report plan ctx results selected dry plugin hooks).summary.total := by
  show (sortByKey (fun r : ResultRec => r.action_id) results).countP (fun r => r.applied)
      + (sortByKey (fun r : ResultRec => r.action_id) results).countP
          (fun r => !r.applied && r.skipped_reason.isSome)
    = results.length
  rw [(perm_sortByKey (fun r : ResultRec => r.action_id) results).countP_eq,
      (perm_sortByKey (fun r : ResultRec => r.action_id) results).countP_eq]
  exact countP_applied_add_skipped results h

/-- C10 witness: a two-result list evaluated concretely. -/
theorem report_summary_consistent_witness :
    (build_report c7plan c7ctx
        [⟨"a", "A", true, true, none, false, "low", [], [], [], []⟩,
         ⟨"b", "B", true, false, some "Not selected", false, "low", [], [], [], []⟩]
        [] false c7plugins []).summary.applied
        + (build_report c7plan c7ctx
            [⟨"a", "A", true, true, none, false, "low", [], [], [], []⟩,
             ⟨"b", "B", true, false, some "Not selected", false, "low", [], [], [], []⟩]
            [] false c7plugins []).summary.skipped
      = (build_report c7plan c7ctx
          [⟨"a", "A", true, true, none, false, "low", [], [], [], []⟩,
           ⟨"b", "B", true, false, some "Not selected", false, "low", [], [], [], []⟩]
          [] false c7plugins []).summary.total := by
  apply report_summary_consistent
  intro r hr
  rcases List.mem_cons.1 hr with h1 | hr2
  · subst h1
    exact Or.inl rfl
  · rcases List.mem_cons.1 hr2 with h2 | h3
    · subst h2
      exact Or.inr ⟨"Not selected", rfl, by decide⟩
    · cases h3

/-! # Claim C8 -/

theorem hookSection_pre_sh (st : LoaderState) (n : String) (m : PyModule) :
    (hookSection st n m).pre_sh = st.pre_sh := by
  unfold hookSection
  split_ifs <;> rfl

theorem hookSection_post_sh (st : LoaderState) (n : String) (m : PyModule) :
    (hookSection st n m).post_sh = st.post_sh := by
  unfold hookSection
  split_ifs <;> rfl

theorem hookSection_actions_loaded (st : LoaderState) (n : String) (m : PyModule) :
    (hookSection st n m).actions_loaded = st.actions_loaded := by
  unfold hookSection
  split_ifs <;> rfl

theorem hookSection_warnings (st : LoaderState) (n : String) (m : PyModule) :
    (hookSection st n m).warnings = st.warnings := by
  unfold hookSection
  split_ifs <;> rfl

theorem hookSection_loaded_files (st : LoaderState) (n : String) (m : PyModule) :
    (hookSection st n m).loaded_files = st.loaded_files := by
  unfold hookSection
  split_ifs <;> rfl

theorem hookSection_failures (st : LoaderState) (n : String) (m : PyModule) :
    (hookSection st n m).failures = st.failures := by
  unfold hookSection
  split_ifs <;> rfl

theorem hookSection_reg (st : LoaderState) (n : String) (m : PyModule) :
    (hookSection st n m).reg = st.reg := by
  unfold hookSection
  split_ifs <;> rfl

/-- C8: a plugin directory holding exactly `warmup_hook.sh` and one
native module whose `register` adds zero actions loads with the shell
file classified as a pre-apply hook, zero actions loaded, and a single
warning noting the zero-action registration. -/
theorem load_plugins_warmup_scenario (reg0 : Registry) (pstem : String)
    (hpre hpost : Bool) :
    (load_plugins reg0 (some (warmupFiles pstem hpre hpost))).2.pre_apply_shell
        = ["warmup_hook.sh"]
      ∧ (load_plugins reg0 (some (warmupFiles pstem hpre hpost))).2.post_apply_shell = []
      ∧ (load_plugins reg0 (some (warmupFiles pstem hpre hpost))).2.actions_loaded = 0
      ∧ (load_plugins reg0 (some (warmupFiles pstem hpre hpost))).2.warnings
          = ["Plugin " ++ (pstem ++ ".py") ++ " register() did not add actions"] := by
  have hwarm : strContains "warmup_hook" "post" = false := by decide
  cases hcmp : strLt (PluginFile.fileName (PluginFile.py pstem
        (.ok ⟨some ([], none), hpre, hpost⟩)))
      (PluginFile.fileName (PluginFile.sh "warmup_hook")) with
  | true =>
    simp [load_plugins, warmupFiles, sortByKey, insertByKey, hcmp, loadOneFile, hwarm,
      hookSection_pre_sh, hookSection_post_sh, hookSection_actions_loaded,
      hookSection_warnings, hookSection_loaded_files, hookSection_failures,
      hookSection_reg]
  | false =>
    simp [load_plugins, warmupFiles, sortByKey, insertByKey, hcmp, loadOneFile, hwarm,
      hookSection_pre_sh, hookSection_post_sh, hookSection_actions_loaded,
      hookSection_warnings, hookSection_loaded_files, hookSection_failures,
      hookSection_reg]

/-! # Claim C3 -/

/-- C3 (amended): dry-run whole-system `--on` performs no side effect —
no external command, no system call, no state-file write (the effect
list is empty and the state file is returned unchanged) — and still
records one change entry per applicable tunable: each entry is planned
(or skipped when its captured value was unavailable, plus the constant
nvidia marker on non-GPU hosts), and a planned entry carries the literal
command exactly for the tunables implemented by external commands
(`cpu_governor`, `swappiness`, `nvidia_persistence`) and no command
string for the in-process ones. -/
theorem accelerate_on_dry_run_props (ctx : SysCtx) (reads : HostReads) (host : HostExec)
    (co go : Bool) (now : String) (fs : Option Payload) :
    ∃ p, accelerateOn ctx reads host true co go now fs = .ok (p, fs, [])
      ∧ p.changes_applied.map (fun c => c.name)
          = dryRunApplicableTunables ctx host.has_nice co go
      ∧ ∀ c ∈ p.changes_applied,
          dryPChange (capture_previous_state ctx co go reads) c := by
  obtain ⟨o, hok, heff, hnames, hP⟩ := apply_dry_props ctx
    (capture_previous_state ctx co go reads) host co go (capture_wellShaped ctx co go reads)
  refine ⟨{ active := false
            platform := ctx.platform
            timestamp := now
            changes_applied := o.changes
            previous_state := capture_previous_state ctx co go reads
            failures := o.failures
            mode := some "dry-run" }, ?_, hnames, hP⟩
  unfold accelerateOn
  simp only [bind, Except.bind, pure, Except.pure, hok, Bool.not_true,
    eq_self_iff_true, if_true, heff]

/-- C3 counterexample: on a Linux host with every tunable readable, the
dry-run change list contains a planned entry (`process_nice`) that
carries no command at all — the claim that every planned entry carries
the literal command is false. -/
theorem dry_run_missing_command_counterexample :
    (c3changes.all fun c => c.result != "planned" || c.command.isSome) = false := rfl

/-- C3 witness: the amended dry-run guarantees instantiated on the
Linux fixture. -/
theorem accelerate_on_dry_run_props_witness :
    ∃ p, accelerateOn ctxLinux readsFull hostNull true false false "t0" none
        = .ok (p, none, [])
      ∧ p.changes_applied.map (fun c => c.name)
          = dryRunApplicableTunables ctxLinux hostNull.has_nice false false
      ∧ ∀ c ∈ p.changes_applied,
          dryPChange (capture_previous_state ctxLinux false false readsFull) c :=
  accelerate_on_dry_run_props ctxLinux readsFull hostNull false false "t0" none

/-! # Claim C7 -/

theorem runApplyLoop_none (selected : List String) (a : InternalItem) :
    ∀ (pre post : List InternalItem), (∀ b ∈ pre, applyLoopStep selected b ≠ none) →
      applyLoopStep selected a = none →
      runApplyLoop selected (pre ++ a :: post) = none := by
  intro pre
  induction pre with
  | nil =>
    intro post _ hstep
    simp only [List.nil_append, runApplyLoop, hstep]
  | cons b bs ih =>
    intro post hpre hstep
    have hb := hpre b (List.mem_cons_self b bs)
    rcases hsb : applyLoopStep selected b with _ | r
    · exact absurd hsb hb
    · rw [List.cons_append]
      simp only [runApplyLoop, hsb, List.append_eq]
      rw [ih post (fun x hx => hpre x (List.mem_cons_of_mem b hx)) hstep]
      rfl

/-- C7 (amended): a `KeyboardInterrupt` raised by an action's `apply`
between actions is not caught by the per-action handler (which only
catches `Exception`): it aborts the apply phase, no report is built or
persisted for that run, the partial results are discarded, and the
command exits with code 130 after printing `Interrupted`.  Unreached
actions therefore do not appear anywhere — there is no report to mark
them interrupted in. -/
theorem interrupt_aborts_without_report (plan : AccelPlan) (ctx : ExecCtx)
    (pre post : List InternalItem) (a : InternalItem) (selected : List String)
    (plugin : PluginLoadResult) (hookw : List String)
    (hsel : selected.contains a.action_id = true)
    (hsup : a.supported = true)
    (hint : a.applyRun = ApplyOutcome.interrupt)
    (hpre : ∀ b ∈ pre, applyLoopStep selected b ≠ none) :
    runPlanApplyPhase plan ctx (pre ++ a :: post) selected plugin hookw = (none, 130) := by
  have hstep : applyLoopStep selected a = none := by
    unfold applyLoopStep
    rw [hsel, hsup, hint]
    rfl
  unfold runPlanApplyPhase
  rw [runApplyLoop_none selected a pre post hpre hstep]

/-- C7 counterexample: with two selected, supported actions where the
first one's `apply` raises `KeyboardInterrupt`, the run persists no
report (so the unreached second action is reported nowhere) and exits
130 — the claim that unreached actions appear in a persisted report with
an `interrupted` skip reason is false. -/
theorem interrupt_report_counterexample :
    c7run.1.isSome = false ∧ c7run.2 = 130 := ⟨rfl, rfl⟩

/-- C7 witness: the amended interrupt behaviour discharged on the
concrete two-action fixture. -/
theorem interrupt_aborts_without_report_witness :
    runPlanApplyPhase c7plan c7ctx ([] ++ c7item1 :: [c7item2]) ["a_first", "b_second"]
        c7plugins [] = (none, 130) :=
  interrupt_aborts_without_report c7plan c7ctx [] [c7item2] c7item1
    ["a_first", "b_second"] c7plugins [] rfl rfl rfl (fun b hb => absurd hb (by simp))

/-! # Claim C9 -/

/-- C9 (amended): the session signal is the `active` flag of the state
file, not the file's existence: a non-dry `--on` writes the file with
`active = true`; a non-dry `--off` with a state file present overwrites
it with `active = false` — the file persists after the session ends —
`--off` with no state file writes nothing; and a missing state file
makes `--status` report inactive. -/
theorem state_file_lifecycle (ctx : SysCtx) (reads : HostReads) (host : HostExec)
    (co go : Bool) (now now2 : String) (fs : Option Payload) :
    (∀ r, accelerateOn ctx reads host false co go now fs = .ok r →
        r.2.1 = some r.1 ∧ r.1.active = true ∧ Effect.saveState ∈ r.2.2)
    ∧ (∀ ex r, accelerateOff ctx host false now2 (some ex) = .ok r →
        r.2.1 = some r.1 ∧ r.1.active = false ∧ Effect.saveState ∈ r.2.2)
    ∧ (accelerateOff ctx host false now2 none
        = .ok ({ active := false
                 platform := ctx.platform
                 timestamp := now2
                 changes_applied := []
                 previous_state := []
                 failures := []
                 mode := some "off"
                 message := some "No active acceleration state found." }, none, []))
    ∧ statusReportedActive ctx now none = false := by
  refine ⟨?_, ?_, rfl, rfl⟩
  · intro r h
    unfold accelerateOn at h
    rcases happ : apply_acceleration ctx
        (capture_previous_state ctx co go reads) false co go host with e | o <;>
      simp only [bind, Except.bind, pure, Except.pure, happ, Bool.not_false,
        Bool.false_eq_true, if_false] at h
    · exact Except.noConfusion h
    · injection h with h2
      subst h2
      exact ⟨rfl, rfl, by simp⟩
  · intro ex r h
    unfold accelerateOff at h
    rcases hres : restore_acceleration ctx ex.previous_state false host with e | o <;>
      simp only [bind, Except.bind, pure, Except.pure, hres, Bool.not_false,
        Bool.false_eq_true, if_false] at h
    · exact Except.noConfusion h
    · injection h with h2
      subst h2
      exact ⟨rfl, rfl, by simp⟩

/-- C9 counterexample: after a non-dry `--on` followed by a non-dry
`--off` on the Linux fixture, the state file still exists while the
status it reports is inactive — the claimed "file exists iff a session
is active" equivalence is false. -/
theorem state_file_exists_while_inactive_counterexample :
    c9fs2.isSome = true ∧ statusReportedActive ctxLinux "t3" c9fs2 = false := ⟨rfl, rfl⟩

/-- C9 witness: the `--on` half of the lifecycle discharged on the
concrete Linux fixture. -/
theorem state_file_lifecycle_witness :
    c9onr.2.1 = some c9onr.1 ∧ c9onr.1.active = true ∧ Effect.saveState ∈ c9onr.2.2 :=
  (state_file_lifecycle ctxLinux readsFull hostNull false false "t1" "t2" none).1
    c9onr rfl

end Continuum
